import Mathlib

/-!
Verification development for the Modbus polling agent
(`lector-mediciones-agente`). The definitions below are a shallow
embedding of the JavaScript sources:

* `src/modbus/clienteModbus.js` — `leerRegistrosModbus`, `testConexionModbus`;
* `src/servicios/restService.js` — `hashConfiguracion`, `detectarTipoCambio`,
  `pollConfiguracion`, the initial-hash seeding of `obtenerConfiguracion`;
* `src/index.js` — the per-device scheduler (`iniciarPolling`,
  `iniciarPollingRegistrador`, `detenerPollingRegistrador`,
  `actualizarRegistradoresGranular`, `detenerPolling`), `leerRegistrador`
  and `ejecutarTestConexion`.

Modelling conventions:

* A JavaScript `Map` is an insertion-ordered association list with unique
  keys (`mapSet`, `mapDelete`, `mapLookup`, `mapHas`); a `Set` of strings
  is an insertion-ordered duplicate-free list.
* I/O outcomes (TCP connect, Modbus read, HTTP report delivery, measured
  elapsed times, the simulated random values) are supplied by explicit
  environment records, so every function is a pure function of its
  environment.
* `JSON.stringify` of the array that `hashConfiguracion` builds is
  injective on the record shape involved, so the fingerprint is modelled
  as the list of projected records itself; string equality of the real
  hashes coincides with list equality of the model.
* `Array.prototype.sort` is stable (ECMA-262) and `localeCompare` on the
  distinct ASCII identifiers used here agrees with the standard order on
  `String`; the sort is therefore modelled by `List.insertionSort`, which
  is stable for the same tie-breaking.
-/

namespace LectorAgente

/-! ### Association-list model of a JavaScript `Map` -/

def mapLookup {α : Type} : List (String × α) → String → Option α
  | [], _ => none
  | (k, v) :: resto, clave => if k = clave then some v else mapLookup resto clave

def mapHas {α : Type} (m : List (String × α)) (clave : String) : Bool :=
  (mapLookup m clave).isSome

def mapSet {α : Type} : List (String × α) → String → α → List (String × α)
  | [], clave, v => [(clave, v)]
  | (k, w) :: resto, clave, v =>
      if k = clave then (clave, v) :: resto else (k, w) :: mapSet resto clave v

/-- A JS `Map` holds each key at most once, so `Map.delete` is modelled as
removing every pair carrying the key (the two agree on the unique-key maps
reachable in this development). -/
def mapDelete {α : Type} : List (String × α) → String → List (String × α)
  | [], _ => []
  | (k, v) :: resto, clave =>
      if k = clave then mapDelete resto clave else (k, v) :: mapDelete resto clave

/-! ### Data model: one monitored Modbus endpoint

`RegistradorRemoto` is the backend wire format consumed by
`restService.js`; `Registrador` is the internal format produced by the
transformation in `cargarRegistradores` / `actualizarRegistradoresGranular`
(`src/index.js`). The backend sends `activo` as a boolean, so the
JavaScript normalisation `activo: r.activo !== false` is the identity
here. -/

structure RegistradorRemoto where
  id : String
  nombre : String
  tipo : String
  ip : String
  puerto : Nat
  unitId : Option Nat
  indiceInicial : Option Int
  cantidadRegistros : Option Int
  intervaloSegundos : Option Nat
  timeoutMs : Option Nat
  activo : Bool
  alimentador : String
deriving DecidableEq, Repr

structure Registrador where
  id : String
  nombre : String
  tipo : String
  ip : String
  puerto : Nat
  unit_id : Option Nat
  indice_inicial : Option Int
  cantidad_registros : Option Int
  intervalo_segundos : Option Nat
  timeout_ms : Option Nat
  activo : Bool
  alimentador : String
deriving DecidableEq, Repr

def transformar (r : RegistradorRemoto) : Registrador :=
  ⟨r.id, r.nombre, r.tipo, r.ip, r.puerto, r.unitId, r.indiceInicial,
    r.cantidadRegistros, r.intervaloSegundos, r.timeoutMs, r.activo, r.alimentador⟩

/-! ### The comparator of `hashConfiguracion`

`hashConfiguracion` sorts by `idA.localeCompare(idB)`. On the identifiers
involved (plain ASCII) `localeCompare` agrees with code-point order, which
is modelled here explicitly over `String.data`. -/

def listaCharLe : List Char → List Char → Bool
  | [], _ => true
  | _ :: _, [] => false
  | c :: cs, d :: ds =>
      if c.val.toNat < d.val.toNat then true
      else if d.val.toNat < c.val.toNat then false
      else listaCharLe cs ds

def cadenaLe (a b : String) : Bool := listaCharLe a.data b.data

/-! The comparator facts needed by the sort instances below. -/

theorem charVal_inj {c d : Char} (h : c.val.toNat = d.val.toNat) : c = d :=
  Char.ext (UInt32.toNat.inj h)

theorem listaCharLe_total : ∀ a b : List Char, listaCharLe a b = true ∨ listaCharLe b a = true
  | [], _ => Or.inl rfl
  | _ :: _, [] => Or.inr rfl
  | c :: cs, d :: ds => by
      rcases Nat.lt_trichotomy c.val.toNat d.val.toNat with h | h | h
      · left
        simp [listaCharLe, h]
      · have h1 : ¬ c.val.toNat < d.val.toNat := by omega
        have h2 : ¬ d.val.toNat < c.val.toNat := by omega
        rcases listaCharLe_total cs ds with ih | ih
        · left
          simp [listaCharLe, h1, h2, ih]
        · right
          simp [listaCharLe, h1, h2, ih]
      · right
        simp [listaCharLe, h]

theorem listaCharLe_antisymm :
    ∀ a b : List Char, listaCharLe a b = true → listaCharLe b a = true → a = b
  | [], [], _, _ => rfl
  | [], _ :: _, _, h2 => by simp [listaCharLe] at h2
  | _ :: _, [], h1, _ => by simp [listaCharLe] at h1
  | c :: cs, d :: ds, h1, h2 => by
      by_cases hcd : c.val.toNat < d.val.toNat
      · have hdc : ¬ d.val.toNat < c.val.toNat := by omega
        simp [listaCharLe, hcd, hdc] at h2
      · by_cases hdc : d.val.toNat < c.val.toNat
        · simp [listaCharLe, hcd, hdc] at h1
        · have hv : c.val.toNat = d.val.toNat := by omega
          have hc : c = d := charVal_inj hv
          subst hc
          simp [listaCharLe, hcd] at h1 h2
          have := listaCharLe_antisymm cs ds h1 h2
          simp [this]

theorem listaCharLe_trans :
    ∀ a b c : List Char, listaCharLe a b = true → listaCharLe b c = true →
      listaCharLe a c = true
  | [], _, _, _, _ => rfl
  | _ :: _, [], _, h1, _ => by simp [listaCharLe] at h1
  | _ :: _, _ :: _, [], _, h2 => by simp [listaCharLe] at h2
  | a :: as, b :: bs, c :: cs, h1, h2 => by
      by_cases hab : a.val.toNat < b.val.toNat <;>
        by_cases hba : b.val.toNat < a.val.toNat <;>
          by_cases hbc : b.val.toNat < c.val.toNat <;>
            by_cases hcb : c.val.toNat < b.val.toNat <;>
              first
              | omega
              | (simp [listaCharLe, hab, hba, hbc, hcb] at h1 h2 ⊢ <;> omega)
              | (have hac : a.val.toNat < c.val.toNat := by omega
                 simp [listaCharLe, hac])
              | (simp [listaCharLe, hab, hba, hbc, hcb] at h1 h2 ⊢
                 have hac1 : ¬ a.val.toNat < c.val.toNat := by omega
                 have hac2 : ¬ c.val.toNat < a.val.toNat := by omega
                 simp [hac1, hac2]
                 first
                 | exact listaCharLe_trans as bs cs h1 h2
                 | exact ⟨by omega, listaCharLe_trans as bs cs h1 h2⟩)

theorem cadenaLe_total (a b : String) : cadenaLe a b = true ∨ cadenaLe b a = true :=
  listaCharLe_total a.data b.data

theorem cadenaLe_antisymm {a b : String} (h1 : cadenaLe a b = true)
    (h2 : cadenaLe b a = true) : a = b := by
  have := listaCharLe_antisymm a.data b.data h1 h2
  cases a; cases b; cases this; rfl

theorem cadenaLe_trans {a b c : String} (h1 : cadenaLe a b = true)
    (h2 : cadenaLe b c = true) : cadenaLe a c = true :=
  listaCharLe_trans a.data b.data c.data h1 h2

theorem cadenaLe_refl (a : String) : cadenaLe a a = true := by
  rcases cadenaLe_total a a with h | h <;> exact h

/-! ### `hashConfiguracion` (src/servicios/restService.js, lines 281-298)

The source sorts a copy of the list by id and serialises, per register,
exactly the fields id, activo, intervaloSegundos, ip, puerto,
indiceInicial and cantidadRegistros with `JSON.stringify`. Since that
serialisation is injective on this record shape, the fingerprint is
modelled as the sorted list of projected records. -/

structure ProyeccionHash where
  id : String
  activo : Bool
  intervaloSegundos : Option Nat
  ip : String
  puerto : Nat
  indiceInicial : Option Int
  cantidadRegistros : Option Int
deriving DecidableEq, Repr

def proyeccionHash (r : RegistradorRemoto) : ProyeccionHash :=
  ⟨r.id, r.activo, r.intervaloSegundos, r.ip, r.puerto, r.indiceInicial, r.cantidadRegistros⟩

def leRegistrador (a b : RegistradorRemoto) : Prop := cadenaLe a.id b.id = true

def leProyeccion (a b : ProyeccionHash) : Prop := cadenaLe a.id b.id = true

instance : DecidableRel leRegistrador := fun a b =>
  inferInstanceAs (Decidable (cadenaLe a.id b.id = true))

instance : DecidableRel leProyeccion := fun a b =>
  inferInstanceAs (Decidable (cadenaLe a.id b.id = true))

instance : IsTotal RegistradorRemoto leRegistrador :=
  ⟨fun a b => cadenaLe_total a.id b.id⟩

instance : IsTrans RegistradorRemoto leRegistrador :=
  ⟨fun _ _ _ h1 h2 => cadenaLe_trans h1 h2⟩

instance : IsTotal ProyeccionHash leProyeccion :=
  ⟨fun a b => cadenaLe_total a.id b.id⟩

instance : IsTrans ProyeccionHash leProyeccion :=
  ⟨fun _ _ _ h1 h2 => cadenaLe_trans h1 h2⟩

def hashConfiguracion (registradores : List RegistradorRemoto) : List ProyeccionHash :=
  (List.insertionSort leRegistrador registradores).map proyeccionHash

/-! ### `detectarTipoCambio` and `pollConfiguracion`
(src/servicios/restService.js, lines 305-382)

The baseline id `Set` and activo `Map` are insertion-ordered; the loops of
the source walk them in that order and return at the first match, so the
`added` and `removed` branches are existence checks and the activo branch
is a first-match search over the new snapshot. -/

structure TipoCambio where
  requiereReinicio : Bool
  razon : String
deriving DecidableEq, Repr

def difiereActivo (ultimosActivos : List (String × Bool)) (r : RegistradorRemoto) : Bool :=
  match mapLookup ultimosActivos r.id with
  | some a => decide (a ≠ r.activo)
  | none => false

def detectarTipoCambio (ultimosIds : List String) (ultimosActivos : List (String × Bool))
    (registradoresNuevos : List RegistradorRemoto) : TipoCambio :=
  if registradoresNuevos.any (fun r => !(decide (r.id ∈ ultimosIds))) then
    ⟨true, "nuevo registrador agregado"⟩
  else if ultimosIds.any (fun i => !(decide (i ∈ registradoresNuevos.map RegistradorRemoto.id))) then
    ⟨true, "registrador eliminado"⟩
  else
    match registradoresNuevos.find? (difiereActivo ultimosActivos) with
    | some r => ⟨true, if r.activo then "registrador activado" else "registrador desactivado"⟩
    | none => ⟨false, "cambio de configuración menor"⟩

structure EstadoRest where
  ultimaConfigHash : Option (List ProyeccionHash)
  ultimosRegistradoresIds : List String
  ultimosRegistradoresActivos : List (String × Bool)
deriving DecidableEq, Repr

def estadoRestInicial : EstadoRest := ⟨none, [], []⟩

/-- The change instruction `pollConfiguracion` forwards: `estructural`
fires the `onConfiguracionCambiada` callback, `cosmetica` would fire
`onConfiguracionActualizada` (which `iniciarConexion` never registers),
`ninguna` fires nothing. -/
inductive Instruccion where
  | ninguna
  | estructural (razon : String)
  | cosmetica (razon : String)
deriving DecidableEq, Repr

/-- Baseline seeding performed by `obtenerConfiguracion(esInicial = true)`
(src/servicios/restService.js, lines 167-185). -/
def establecerHashInicial (registradores : List RegistradorRemoto) : EstadoRest :=
  ⟨some (hashConfiguracion registradores), registradores.map RegistradorRemoto.id,
    registradores.map (fun r => (r.id, r.activo))⟩

def pollConfiguracion (s : EstadoRest) (registradores : List RegistradorRemoto) :
    EstadoRest × Instruccion :=
  let nuevoHash := hashConfiguracion registradores
  match s.ultimaConfigHash with
  | some h =>
      if h ≠ nuevoHash then
        let cambio := detectarTipoCambio s.ultimosRegistradoresIds
          s.ultimosRegistradoresActivos registradores
        (⟨some nuevoHash, registradores.map RegistradorRemoto.id,
            registradores.map (fun r => (r.id, r.activo))⟩,
          if cambio.requiereReinicio then .estructural cambio.razon
          else .cosmetica cambio.razon)
      else
        (⟨some nuevoHash, s.ultimosRegistradoresIds, s.ultimosRegistradoresActivos⟩, .ninguna)
  | none =>
      (⟨some nuevoHash, s.ultimosRegistradoresIds, s.ultimosRegistradoresActivos⟩, .ninguna)

/-! ### Per-device poll scheduler (src/index.js)

`intervalosLectura` maps a device id to the fixed period, in
milliseconds, that `setInterval` was armed with — a `setInterval` handle
fires at that period until cleared, so the captured period is the whole
observable schedule of the timer. `contadoresProxLectura` is the
countdown map shown in the UI. UI notifications and the shared one-second
ticker (`asegurarContadorGlobal`) carry no scheduling state and are not
modelled. -/

structure EstadoAgente where
  registradoresCache : List Registrador
  intervalosLectura : List (String × Nat)
  contadoresProxLectura : List (String × Nat)
  cicloActivo : Bool
  rest : EstadoRest
deriving DecidableEq, Repr

def estadoAgenteInicial : EstadoAgente := ⟨[], [], [], false, estadoRestInicial⟩

/-- `reg.intervalo_segundos || 60`: any falsy value (absent or zero)
defaults to 60. -/
def intervaloEfectivo (r : Registrador) : Nat :=
  match r.intervalo_segundos with
  | some n => if n = 0 then 60 else n
  | none => 60

/-- Arming step shared by `iniciarPolling`'s per-device loop: store the
countdown and create the `setInterval` with the captured period. -/
def armarRegistrador (s : EstadoAgente) (reg : Registrador) : EstadoAgente :=
  { s with
    contadoresProxLectura := mapSet s.contadoresProxLectura reg.id (intervaloEfectivo reg)
    intervalosLectura := mapSet s.intervalosLectura reg.id (intervaloEfectivo reg * 1000) }

def armarLista : EstadoAgente → List Registrador → EstadoAgente
  | s, [] => s
  | s, reg :: resto => armarLista (armarRegistrador s reg) resto

/-- `iniciarPollingRegistrador` (src/index.js, lines 290-326). -/
def iniciarPollingRegistrador (s : EstadoAgente) (reg : Registrador) : EstadoAgente :=
  if reg.activo then armarRegistrador { s with cicloActivo := true } reg else s

/-- `detenerPollingRegistrador` (src/index.js, lines 331-339): only when a
timer exists are the timer and the countdown removed. -/
def detenerPollingRegistrador (s : EstadoAgente) (regId : String) : EstadoAgente :=
  if mapHas s.intervalosLectura regId then
    { s with
      intervalosLectura := mapDelete s.intervalosLectura regId
      contadoresProxLectura := mapDelete s.contadoresProxLectura regId }
  else s

/-- `iniciarPolling` (src/index.js, lines 164-213). -/
def iniciarPolling (s : EstadoAgente) : EstadoAgente :=
  if s.cicloActivo then s
  else if s.registradoresCache.isEmpty then s
  else
    let s1 := { s with cicloActivo := true }
    let registradoresActivos := s.registradoresCache.filter (fun r => r.activo)
    if registradoresActivos.isEmpty then s1 else armarLista s1 registradoresActivos

/-- `cargarRegistradores` (src/index.js, lines 39-85): fetches the
snapshot, seeds the fingerprint baseline when the cache is still empty
(`esInicial`), and replaces the cache with the transformed snapshot. -/
def cargarRegistradores (s : EstadoAgente) (registradores : List RegistradorRemoto) :
    EstadoAgente :=
  let esInicial := s.registradoresCache.isEmpty
  { s with
    rest := if esInicial then establecerHashInicial registradores else s.rest
    registradoresCache := registradores.map transformar }

/-- The `onAutenticado` flow (src/index.js, lines 472-482): load the
registry, then start polling when the cache is non-empty. -/
def cargaInicial (s : EstadoAgente) (registradores : List RegistradorRemoto) : EstadoAgente :=
  let s1 := cargarRegistradores s registradores
  if s1.registradoresCache.isEmpty then s1 else iniciarPolling s1

/-- Phase 1 of `actualizarRegistradoresGranular`: stop polling for each
cached register whose id is absent from the new snapshot. -/
def faseEliminados (idsNuevos : List String) : EstadoAgente → List Registrador → EstadoAgente
  | s, [] => s
  | s, regActual :: resto =>
      faseEliminados idsNuevos
        (if decide (regActual.id ∈ idsNuevos) then s
         else detenerPollingRegistrador s regActual.id) resto

/-- Phase 2: start polling for each genuinely new register that is active. -/
def faseNuevos (idsActuales : List String) : EstadoAgente → List Registrador → EstadoAgente
  | s, [] => s
  | s, regNuevo :: resto =>
      faseNuevos idsActuales
        (if decide (regNuevo.id ∈ idsActuales) then s
         else if regNuevo.activo then iniciarPollingRegistrador s regNuevo else s) resto

/-- Phase 3: react to activo-flag transitions of registers present in both
snapshots; a pure interval change only logs. `registradoresCache` is still
the old cache at this point (it is replaced afterwards). -/
def faseEstados (cacheViejo : List Registrador) : EstadoAgente → List Registrador → EstadoAgente
  | s, [] => s
  | s, regNuevo :: resto =>
      faseEstados cacheViejo
        (match cacheViejo.find? (fun c => decide (c.id = regNuevo.id)) with
         | some regActual =>
             if regActual.activo ∧ ¬ regNuevo.activo then
               detenerPollingRegistrador s regNuevo.id
             else if ¬ regActual.activo ∧ regNuevo.activo then
               iniciarPollingRegistrador s regNuevo
             else s
         | none => s) resto

/-- `actualizarRegistradoresGranular` (src/index.js, lines 344-409). -/
def actualizarRegistradoresGranular (s : EstadoAgente)
    (registradoresNuevos : List RegistradorRemoto) : EstadoAgente :=
  let nuevosTransformados := registradoresNuevos.map transformar
  let idsNuevos := nuevosTransformados.map Registrador.id
  let idsActuales := s.registradoresCache.map Registrador.id
  let s1 := faseEliminados idsNuevos s s.registradoresCache
  let s2 := faseNuevos idsActuales s1 nuevosTransformados
  let s3 := faseEstados s.registradoresCache s2 nuevosTransformados
  { s3 with registradoresCache := nuevosTransformados }

/-- `detenerPolling` (src/index.js, lines 414-429): clears every timer and
countdown but leaves `registradoresCache` untouched. -/
def detenerPolling (s : EstadoAgente) : EstadoAgente :=
  { s with cicloActivo := false, intervalosLectura := [], contadoresProxLectura := [] }

/-- One configuration-poll tick as wired in `main`: `pollConfiguracion`
classifies, a structural instruction reaches
`actualizarRegistradoresGranular` through `onRegistradoresActualizar`;
the cosmetic branch calls `callbacks.onConfiguracionActualizada`, a slot
`iniciarConexion` never fills, so a cosmetic change reaches no code in
`index.js` — the cache and the timers stay as they are. -/
def pasoPollConfiguracion (s : EstadoAgente) (registradores : List RegistradorRemoto) :
    EstadoAgente × Instruccion :=
  let resultado := pollConfiguracion s.rest registradores
  let s1 := { s with rest := resultado.1 }
  match resultado.2 with
  | .estructural razon => (actualizarRegistradoresGranular s1 registradores, .estructural razon)
  | instr => (s1, instr)

/-! ### `leerRegistrosModbus` (src/modbus/clienteModbus.js, lines 19-63)

Network outcomes come from an explicit environment: `conectar` is the
`connectTCP` outcome, `leer` the `readHoldingRegisters` outcome,
`aleatorio` the simulated pseudo-random values. The returned trace
records the value (`null` becomes `none`), whether a connection was
attempted, and the timeout installed with `setTimeout` — the source
installs the constant `5000` right after a successful connect. -/

inductive ModoModbus where
  | simulado
  | real
deriving DecidableEq, Repr

structure ConfigLectura where
  ip : String
  puerto : Nat
  indiceInicial : Option Int
  cantRegistros : Option Int
  unitId : Nat
deriving DecidableEq, Repr

structure EntornoModbus where
  conectar : Except String Unit
  leer : Except String (List Nat)
  aleatorio : Nat → Nat

structure SalidaLectura where
  valores : Option (List Nat)
  conexionIntentada : Bool
  timeoutAplicado : Option Nat
deriving DecidableEq, Repr

/-- The validation of `leerRegistrosModbus`: falsy ip or puerto, `NaN`
after `Number(...)` (an absent field), or a non-positive count. -/
def parametrosInvalidos (cfg : ConfigLectura) : Bool :=
  decide (cfg.ip = "") || decide (cfg.puerto = 0) || decide (cfg.indiceInicial = none) ||
    (match cfg.cantRegistros with
     | none => true
     | some c => decide (c ≤ 0))

def leerRegistrosModbus (modo : ModoModbus) (env : EntornoModbus) (cfg : ConfigLectura) :
    SalidaLectura :=
  if parametrosInvalidos cfg then ⟨none, false, none⟩
  else
    match modo with
    | .simulado =>
        let cantidad := (cfg.cantRegistros.getD 0).toNat
        ⟨some ((List.range cantidad).map env.aleatorio), false, none⟩
    | .real =>
        match env.conectar with
        | .error _ => ⟨none, true, none⟩
        | .ok _ =>
            match env.leer with
            | .error _ => ⟨none, true, some 5000⟩
            | .ok respuesta => ⟨some respuesta, true, some 5000⟩

/-! ### `testConexionModbus` (src/modbus/clienteModbus.js, lines 75-132)

The function destructures only `ip`, `puerto` and `unitId`; the
`indiceInicial` and `cantRegistros` of the request are ignored, the real
mode reads the fixed range `(0, 1)`, and no branch puts a `registros`
field on the result. -/

structure ConfigTest where
  ip : String
  puerto : Nat
  unitId : Nat
  indiceInicial : Option Int
  cantRegistros : Option Int
deriving DecidableEq, Repr

structure ResultadoTestConexion where
  exito : Bool
  tiempoMs : Option Nat
  mensaje : Option String
  error : Option String
  registros : Option (List (Nat × Nat))
deriving DecidableEq, Repr

structure EntornoTestModbus where
  conectar : Except String Unit
  leer : Except String (List Nat)
  tiempoSimuladoMs : Nat
  tiempoTranscurridoMs : Nat

def testConexionModbus (modo : ModoModbus) (env : EntornoTestModbus) (cfg : ConfigTest) :
    ResultadoTestConexion :=
  if decide (cfg.ip = "") || decide (cfg.puerto = 0) then
    ⟨false, none, none, some "IP y puerto son requeridos", none⟩
  else
    match modo with
    | .simulado =>
        ⟨true, some env.tiempoSimuladoMs, some "Conexión simulada exitosa", none, none⟩
    | .real =>
        match env.conectar with
        | .error e => ⟨false, some env.tiempoTranscurridoMs, none, some e, none⟩
        | .ok _ =>
            match env.leer with
            | .error e => ⟨false, some env.tiempoTranscurridoMs, none, some e, none⟩
            | .ok _ =>
                ⟨true, some env.tiempoTranscurridoMs,
                  some ("Conexión exitosa en " ++ toString env.tiempoTranscurridoMs ++ "ms"),
                  none, none⟩

/-! ### `leerRegistrador` (src/index.js, lines 90-159)

`reg.unit_id || 1` defaults a falsy unit id to 1; the call passes no
timeout field at all. When `leerRegistrosModbus` returns `null`,
`Array.from(valores)` raises a `TypeError` whose text is modelled by the
constant below, and the catch block reports a failed reading. When the
upstream send of a successful reading itself throws, the catch block
additionally attempts a failure report (whose own failure is swallowed).
The returned list holds the attempted upstream reading reports in
order. -/

def unitIdEfectivo : Option Nat → Nat
  | none => 1
  | some n => if n = 0 then 1 else n

def configLecturaDe (reg : Registrador) : ConfigLectura :=
  ⟨reg.ip, reg.puerto, reg.indice_inicial, reg.cantidad_registros,
    unitIdEfectivo reg.unit_id⟩

def mensajeValoresNoIterables : String := "valores is not iterable"

structure LecturaEnviada where
  registradorId : String
  valores : List Nat
  tiempoMs : Nat
  exito : Bool
  error : Option String
deriving DecidableEq, Repr

structure EntornoEnvio where
  tiempoLecturaMs : Nat
  tiempoErrorMs : Nat
  fallaEnvio : Option String

def leerRegistrador (modo : ModoModbus) (envM : EntornoModbus) (envE : EntornoEnvio)
    (reg : Registrador) : List LecturaEnviada :=
  let salida := leerRegistrosModbus modo envM (configLecturaDe reg)
  match salida.valores with
  | some valores =>
      match envE.fallaEnvio with
      | none => [⟨reg.id, valores, envE.tiempoLecturaMs, true, none⟩]
      | some mensajeError =>
          [⟨reg.id, valores, envE.tiempoLecturaMs, true, none⟩,
           ⟨reg.id, [], envE.tiempoErrorMs, false, some mensajeError⟩]
  | none => [⟨reg.id, [], envE.tiempoErrorMs, false, some mensajeValoresNoIterables⟩]

/-! ### `ejecutarTestConexion` (src/index.js, lines 218-268)

The in-flight `Set` `testsEnProceso` suppresses duplicate ids; the
`finally` block always removes the id. The executor outcome is a value or
an exception; the upstream report calls can themselves throw
(`fallaReporteTry` for the report inside the `try`, `fallaReporteCatch`
for the one inside the `catch`). The trace records the in-flight set at
exit, the reports that were delivered (a throwing call delivers nothing),
and how many times the executor ran. On executor success the source first
dereferences `resultado.registros.length`; `testConexionModbus` never
returns that field, in which case a `TypeError` (modelled by
`mensajeRegistrosIndefinidos`) diverts execution to the catch block. -/

def conjuntoAgregar (s : List String) (x : String) : List String :=
  if decide (x ∈ s) then s else s ++ [x]

def conjuntoEliminar (s : List String) (x : String) : List String :=
  s.filter (fun y => decide (y ≠ x))

def mensajeRegistrosIndefinidos : String :=
  "Cannot read properties of undefined (reading length)"

structure ReporteTest where
  exito : Bool
  tiempoRespuestaMs : Option Nat
  valores : Option (List Nat)
  errorMensaje : Option String
deriving DecidableEq, Repr

structure SalidaTestConexion where
  testsEnProceso : List String
  reportesEntregados : List ReporteTest
  llamadasEjecutor : Nat
deriving DecidableEq, Repr

def ejecutarTestConexion (resultadoEjecutor : Except String ResultadoTestConexion)
    (fallaReporteTry : Option String) (fallaReporteCatch : Bool)
    (testsEnProceso : List String) (testId : String) : SalidaTestConexion :=
  if decide (testId ∈ testsEnProceso) then ⟨testsEnProceso, [], 0⟩
  else
    let enProceso := conjuntoAgregar testsEnProceso testId
    let reportes :=
      match resultadoEjecutor with
      | .error mensajeError =>
          if fallaReporteCatch then [] else [⟨false, none, none, some mensajeError⟩]
      | .ok resultado =>
          if resultado.exito then
            match resultado.registros with
            | none =>
                if fallaReporteCatch then []
                else [⟨false, none, none, some mensajeRegistrosIndefinidos⟩]
            | some registros =>
                match fallaReporteTry with
                | none =>
                    [⟨true, resultado.tiempoMs, some (registros.map Prod.snd), none⟩]
                | some mensajeError =>
                    if fallaReporteCatch then []
                    else [⟨false, none, none, some mensajeError⟩]
          else
            match fallaReporteTry with
            | none => [⟨false, resultado.tiempoMs, none, resultado.error⟩]
            | some mensajeError =>
                if fallaReporteCatch then []
                else [⟨false, none, none, some mensajeError⟩]
    ⟨conjuntoEliminar enProceso testId, reportes, 1⟩

/-! ### Specification-side definitions

`especificacionDiffCorregida` renders, for comparison with the code, the
amended claim C3: the first-match priority list added > removed >
activado/desactivado > cosmetic, where the cosmetic case requires a
difference in a fingerprinted field (interval, ip, puerto, indiceInicial,
cantidadRegistros — `proyeccionHash` inequality on a common id), and
anything else (including a name-only change) yields no instruction. -/

def especificacionDiffCorregida (previos nuevos : List RegistradorRemoto) : Instruccion :=
  if nuevos.any (fun r => !(decide (r.id ∈ previos.map RegistradorRemoto.id))) then
    .estructural "nuevo registrador agregado"
  else if (previos.map RegistradorRemoto.id).any
      (fun i => !(decide (i ∈ nuevos.map RegistradorRemoto.id))) then
    .estructural "registrador eliminado"
  else
    match nuevos.find? (difiereActivo (previos.map (fun p => (p.id, p.activo)))) with
    | some r =>
        .estructural (if r.activo then "registrador activado" else "registrador desactivado")
    | none =>
        if nuevos.any (fun r =>
            match previos.find? (fun p => decide (p.id = r.id)) with
            | some p => decide (proyeccionHash p ≠ proyeccionHash r)
            | none => false) then
          .cosmetica "cambio de configuración menor"
        else .ninguna

/-- Strict version of the sort comparator, used to identify the sorted
projection lists of two permuted snapshots with distinct ids. -/
def ltProyeccion (a b : ProyeccionHash) : Prop :=
  cadenaLe a.id b.id = true ∧ a.id ≠ b.id

instance : IsTrans ProyeccionHash ltProyeccion := by
  constructor
  intro a b c h1 h2
  refine ⟨cadenaLe_trans h1.1 h2.1, ?_⟩
  intro he
  apply h1.2
  apply cadenaLe_antisymm h1.1
  have h3 := h2.1
  rw [← he] at h3
  exact h3

instance : IsAntisymm ProyeccionHash ltProyeccion := by
  constructor
  intro a b h1 h2
  exact absurd (cadenaLe_antisymm h1.1 h2.1) h1.2

/-! ### Invariant of claim C2

`Sincronizados`: the countdown map and the timer map hold exactly the
same device ids. `TimersCorrectos`: a live timer exists exactly for the
cached registers with `activo = true`. -/

def Sincronizados (s : EstadoAgente) : Prop :=
  ∀ k, mapHas s.contadoresProxLectura k = true ↔ mapHas s.intervalosLectura k = true

def TimersCorrectos (s : EstadoAgente) : Prop :=
  ∀ k, mapHas s.intervalosLectura k = true ↔
    ∃ r ∈ s.registradoresCache, r.id = k ∧ r.activo = true

def InvarianteAgente (s : EstadoAgente) : Prop :=
  (s.registradoresCache.map Registrador.id).Nodup ∧ Sincronizados s ∧ TimersCorrectos s

/-- The four error classifications named by the specification; the code
never produces any of them. -/
def clasificaciones : List String :=
  ["connection_refused", "timeout", "protocol_error", "invalid_parameters"]

/-! ### Concrete data used by counterexamples and witnesses -/

def regBase : RegistradorRemoto :=
  ⟨"1", "Rele Norte", "rele", "192.168.0.10", 502, some 1, some 0, some 10,
    some 60, some 1000, true, "alim-norte"⟩

def regIntervalo10 : RegistradorRemoto := { regBase with intervaloSegundos := some 10 }

def regIntervalo30 : RegistradorRemoto := { regBase with intervaloSegundos := some 30 }

def regNombreCambiado : RegistradorRemoto := { regBase with nombre := "Rele Sur" }

def regSegundo : RegistradorRemoto :=
  ⟨"2", "Analizador Sur", "analizador", "192.168.0.11", 502, some 1, some 0, some 4,
    some 30, some 1000, true, "alim-sur"⟩

def regDuplicadoA : RegistradorRemoto := { regBase with id := "d", nombre := "Copia A" }

def regDuplicadoB : RegistradorRemoto :=
  { regBase with id := "d", nombre := "Copia B", activo := false }

def regConTimeout : Registrador := transformar { regBase with timeoutMs := some 1234 }

def regInvalido : Registrador :=
  transformar { regBase with id := "7", cantidadRegistros := some 0 }

def envModbusOk : EntornoModbus := ⟨.ok (), .ok [7, 8], fun _ => 0⟩

def envEnvioNormal : EntornoEnvio := ⟨25, 40, none⟩

def envTestSimulado : EntornoTestModbus := ⟨.ok (), .ok [9], 150, 150⟩

def solicitudTest : ConfigTest := ⟨"192.168.0.10", 502, 1, some 0, some 3⟩

/-! ## Lemmas and theorems -/

theorem mapLookup_set {α : Type} (m : List (String × α)) (clave : String) (v : α) (k : String) :
    mapLookup (mapSet m clave v) k = if clave = k then some v else mapLookup m k := by
  induction m with
  | nil =>
      by_cases h : clave = k <;> simp [mapSet, mapLookup, h]
  | cons p resto ih =>
      obtain ⟨k', v'⟩ := p
      by_cases h1 : k' = clave
      · subst h1
        by_cases h2 : k' = k <;> simp [mapSet, mapLookup, h2, ih]
      · by_cases h2 : k' = k
        · subst h2
          have : ¬ clave = k' := fun h => h1 h.symm
          simp [mapSet, mapLookup, h1, this]
        · simp [mapSet, mapLookup, h1, h2, ih]

theorem mapLookup_delete {α : Type} (m : List (String × α)) (clave k : String) :
    mapLookup (mapDelete m clave) k = if k = clave then none else mapLookup m k := by
  induction m with
  | nil => simp [mapDelete, mapLookup]
  | cons p resto ih =>
      obtain ⟨k', v'⟩ := p
      by_cases h1 : k' = clave
      · subst h1
        by_cases h2 : k' = k
        · subst h2
          simp [mapDelete, mapLookup, ih]
        · have h3 : ¬ k' = k := h2
          simp [mapDelete, mapLookup, h3, ih]
      · by_cases h2 : k' = k
        · subst h2
          simp [mapDelete, mapLookup, h1]
        · simp [mapDelete, mapLookup, h1, h2, ih]

theorem mapHas_iff {α : Type} (m : List (String × α)) (k : String) :
    mapHas m k = true ↔ ∃ v, mapLookup m k = some v := by
  simp [mapHas, Option.isSome_iff_exists]

theorem mapHas_set {α : Type} (m : List (String × α)) (clave : String) (v : α) (k : String) :
    mapHas (mapSet m clave v) k = true ↔ (k = clave ∨ mapHas m k = true) := by
  by_cases h : clave = k
  · subst h
    simp [mapHas, mapLookup_set]
  · have h' : ¬ k = clave := fun hc => h hc.symm
    simp [mapHas, mapLookup_set, h, h']

theorem mapHas_delete {α : Type} (m : List (String × α)) (clave k : String) :
    mapHas (mapDelete m clave) k = true ↔ (¬ k = clave ∧ mapHas m k = true) := by
  by_cases h : k = clave <;> simp [mapHas, mapLookup_delete, h]

theorem transformar_id (r : RegistradorRemoto) : (transformar r).id = r.id := rfl

theorem transformar_activo (r : RegistradorRemoto) : (transformar r).activo = r.activo := rfl

/-! ### Claim C4 -/

/-- C4: the very first registry fetch of a session only seeds the
baseline and emits no instruction. Part 1: a `pollConfiguracion` tick in
a state with no established fingerprint emits `ninguna` and establishes
the fingerprint. Part 2: a non-`ninguna` instruction can only arise from
a previously established fingerprint that differs from the fetched one.
Part 3: the initial `cargarRegistradores` load (empty cache) seeds the
full baseline — fingerprint, id set and activo map — and by construction
emits no instruction. -/
theorem primerFetchSoloSiembra :
    (∀ (s : EstadoRest) (regs : List RegistradorRemoto),
        s.ultimaConfigHash = none →
          (pollConfiguracion s regs).2 = Instruccion.ninguna ∧
          (pollConfiguracion s regs).1.ultimaConfigHash = some (hashConfiguracion regs)) ∧
    (∀ (s : EstadoRest) (regs : List RegistradorRemoto),
        (pollConfiguracion s regs).2 ≠ Instruccion.ninguna →
          ∃ h, s.ultimaConfigHash = some h ∧ h ≠ hashConfiguracion regs) ∧
    (∀ (s : EstadoAgente) (regs : List RegistradorRemoto),
        s.registradoresCache = [] →
          (cargarRegistradores s regs).rest = establecerHashInicial regs) := by
  refine ⟨?_, ?_, ?_⟩
  · intro s regs h
    simp [pollConfiguracion, h]
  · intro s regs h
    match hs : s.ultimaConfigHash with
    | none => simp [pollConfiguracion, hs] at h
    | some viejo =>
        by_cases hne : viejo = hashConfiguracion regs
        · simp [pollConfiguracion, hs, hne] at h
        · exact ⟨viejo, rfl, hne⟩
  · intro s regs h
    simp [cargarRegistradores, h]

/-- Witness for C4 at concrete inputs. -/
theorem primerFetchSoloSiembra_testigo :
    (pollConfiguracion estadoRestInicial [regBase]).2 = Instruccion.ninguna ∧
    (cargarRegistradores estadoAgenteInicial [regBase]).rest = establecerHashInicial [regBase] :=
  ⟨(primerFetchSoloSiembra.1 estadoRestInicial [regBase] rfl).1,
    primerFetchSoloSiembra.2.2 estadoAgenteInicial [regBase] rfl⟩

/-! ### Claim C5 -/

/-- C5: duplicate suppression and in-flight bookkeeping of
`ejecutarTestConexion`. A call whose id is already in flight returns with
no side effects (no executor call, no report, set unchanged). A fresh
call runs the executor exactly once, delivers at most one upstream
outcome report, and on every completion path — executor success, executor
failure, executor exception, or failure of the report itself — the
in-flight marker is removed (the exit set equals the entry set, which did
not contain the id). -/
theorem deduplicacionTests :
    ∀ (resultadoEjecutor : Except String ResultadoTestConexion)
      (fallaTry : Option String) (fallaCatch : Bool)
      (enProceso : List String) (testId : String),
      (testId ∈ enProceso →
        ejecutarTestConexion resultadoEjecutor fallaTry fallaCatch enProceso testId =
          ⟨enProceso, [], 0⟩) ∧
      (testId ∉ enProceso →
        (ejecutarTestConexion resultadoEjecutor fallaTry fallaCatch
            enProceso testId).testsEnProceso = enProceso ∧
        testId ∉ (ejecutarTestConexion resultadoEjecutor fallaTry fallaCatch
            enProceso testId).testsEnProceso ∧
        (ejecutarTestConexion resultadoEjecutor fallaTry fallaCatch
            enProceso testId).llamadasEjecutor = 1 ∧
        (ejecutarTestConexion resultadoEjecutor fallaTry fallaCatch
            enProceso testId).reportesEntregados.length ≤ 1) := by
  intro resultadoEjecutor fallaTry fallaCatch enProceso testId
  constructor
  · intro h
    simp [ejecutarTestConexion, h]
  · intro h
    have hset : conjuntoEliminar (conjuntoAgregar enProceso testId) testId = enProceso := by
      have h2 : List.filter (fun y => decide (y ≠ testId)) enProceso = enProceso :=
        List.filter_eq_self.mpr (fun y hy => by
          simp only [decide_eq_true_eq]
          intro he
          exact h (he ▸ hy))
      simp [conjuntoAgregar, conjuntoEliminar, h, List.filter_append, h2]
      intro a ha he
      exact h (he ▸ ha)
    have hA : (ejecutarTestConexion resultadoEjecutor fallaTry fallaCatch
        enProceso testId).testsEnProceso = enProceso := by
      simp [ejecutarTestConexion, h, hset]
    refine ⟨hA, ?_, ?_, ?_⟩
    · rw [hA]
      exact h
    · simp [ejecutarTestConexion, h]
    · simp only [ejecutarTestConexion, h]
      rcases resultadoEjecutor with e | resultado
      · by_cases hc : fallaCatch <;> simp [hc]
      · by_cases hex : resultado.exito <;>
          rcases hreg : resultado.registros with _ | registros <;>
            rcases htry : fallaTry with _ | m <;>
              by_cases hc : fallaCatch <;>
                simp [hex, hreg, htry, hc]

/-- Witness for C5: the duplicate branch and a fresh execution whose
first report throws. -/
theorem deduplicacionTests_testigo :
    ejecutarTestConexion (Except.error "ECONNREFUSED") none false ["t1"] "t1" =
      ⟨["t1"], [], 0⟩ ∧
    (ejecutarTestConexion (Except.error "ECONNREFUSED") (some "fetch failed") true
        ["t1"] "t2").testsEnProceso = ["t1"] :=
  ⟨(deduplicacionTests (Except.error "ECONNREFUSED") none false ["t1"] "t1").1 (by decide),
    ((deduplicacionTests (Except.error "ECONNREFUSED") (some "fetch failed") true
        ["t1"] "t2").2 (by decide)).1⟩

/-! ### Claim C9 -/

/-- C9 counterexample: the claim says each read applies the device's
configured `timeoutMs`. For a device configured with `timeoutMs = 1234`,
the call built by `leerRegistrador` carries no timeout field at all
(`ConfigLectura` is exactly the five fields the source passes) and the
timeout installed on the Modbus client is the constant 5000. -/
theorem timeoutPorDispositivoIgnorado :
    regConTimeout.timeout_ms = some 1234 ∧
    (leerRegistrosModbus ModoModbus.real envModbusOk
        (configLecturaDe regConTimeout)).timeoutAplicado = some 5000 ∧
    (1234 : Nat) ≠ 5000 := by
  refine ⟨rfl, ?_, by decide⟩
  decide

/-- C9 amended: every read installs either no timeout (validation
failure, simulated mode, or connection failure — `setTimeout` is only
reached after `connectTCP` succeeds) or the fixed 5000 ms; the
descriptor's `timeoutMs` is never consulted. -/
theorem timeoutConstante5000 :
    ∀ (modo : ModoModbus) (env : EntornoModbus) (cfg : ConfigLectura),
      (leerRegistrosModbus modo env cfg).timeoutAplicado = none ∨
      (leerRegistrosModbus modo env cfg).timeoutAplicado = some 5000 := by
  intro modo env cfg
  by_cases h : parametrosInvalidos cfg
  · simp [leerRegistrosModbus, h]
  · cases modo
    · simp [leerRegistrosModbus, h]
    · rcases hc : env.conectar with e | u
      · simp [leerRegistrosModbus, h, hc]
      · rcases hl : env.leer with e | respuesta <;> simp [leerRegistrosModbus, h, hc, hl]

/-! ### Claim C7 -/

/-- C7: the claim says the test variant returns the per-register
(address, value) pairs of the requested range. In the code
`testConexionModbus` ignores `indiceInicial` and `cantRegistros`
entirely and returns no `registros` field on any branch; consequently its
caller `ejecutarTestConexion`, which dereferences
`resultado.registros.length` on success, throws and reports even a
successful test as failed. Evaluated at the failing input (a successful
simulated test requesting 3 registers from index 0). -/
theorem testConexionSinRegistros :
    (testConexionModbus ModoModbus.simulado envTestSimulado solicitudTest).exito = true ∧
    (testConexionModbus ModoModbus.simulado envTestSimulado solicitudTest).registros = none ∧
    (ejecutarTestConexion
        (Except.ok (testConexionModbus ModoModbus.simulado envTestSimulado solicitudTest))
        none false [] "t1").reportesEntregados =
      [⟨false, none, none, some mensajeRegistrosIndefinidos⟩] ∧
    (∀ (modo : ModoModbus) (env : EntornoTestModbus) (cfg : ConfigTest)
        (a b : Option Int),
      testConexionModbus modo env
          { cfg with indiceInicial := a, cantRegistros := b } =
        testConexionModbus modo env cfg ∧
      (testConexionModbus modo env cfg).registros = none) := by
  refine ⟨by decide, by decide, by decide, ?_⟩
  intro modo env cfg a b
  constructor
  · cases modo <;> rfl
  · by_cases h : (decide (cfg.ip = "") || decide (cfg.puerto = 0)) = true
    · simp [testConexionModbus, h]
    · cases modo
      · simp [testConexionModbus, h]
      · rcases hc : env.conectar with e | u
        · simp [testConexionModbus, h, hc]
        · rcases hl : env.leer with e | r <;> simp [testConexionModbus, h, hc, hl]

/-! ### Claim C6 -/

/-- C6 counterexample: the claim says every non-successful read returns a
result carrying a classification from `clasificaciones` plus the elapsed
time. At a concrete invalid-parameters input the executor returns the
bare `null` trace `⟨none, false, none⟩` — no classification, no elapsed
time, no connection attempt — and the reading that `leerRegistrador`
then reports upstream carries the raw `TypeError` text, which is not one
of the four classifications. -/
theorem lecturaFallidaSinClasificacion :
    leerRegistrosModbus ModoModbus.real envModbusOk (configLecturaDe regInvalido) =
      ⟨none, false, none⟩ ∧
    leerRegistrador ModoModbus.real envModbusOk envEnvioNormal regInvalido =
      [⟨"7", [], 40, false, some mensajeValoresNoIterables⟩] ∧
    mensajeValoresNoIterables ∉ clasificaciones := by
  refine ⟨by decide, by decide, by decide⟩

/-- C6 amended: a read that does not succeed returns `null` with no
classification; with invalid parameters no connection is ever attempted;
any real-mode failure with valid parameters happened after attempting the
connection; and the caller converts every `null` into a single upstream
failure report with elapsed time and the raw error text. -/
theorem lecturaFallidaDevuelveNull :
    (∀ (modo : ModoModbus) (env : EntornoModbus) (cfg : ConfigLectura),
        parametrosInvalidos cfg = true →
          leerRegistrosModbus modo env cfg = ⟨none, false, none⟩) ∧
    (∀ (env : EntornoModbus) (cfg : ConfigLectura),
        parametrosInvalidos cfg = false →
        (leerRegistrosModbus ModoModbus.real env cfg).valores = none →
          (leerRegistrosModbus ModoModbus.real env cfg).conexionIntentada = true) ∧
    (∀ (modo : ModoModbus) (envM : EntornoModbus) (envE : EntornoEnvio) (reg : Registrador),
        (leerRegistrosModbus modo envM (configLecturaDe reg)).valores = none →
          leerRegistrador modo envM envE reg =
            [⟨reg.id, [], envE.tiempoErrorMs, false, some mensajeValoresNoIterables⟩]) := by
  refine ⟨?_, ?_, ?_⟩
  · intro modo env cfg h
    simp [leerRegistrosModbus, h]
  · intro env cfg h hv
    rcases hc : env.conectar with e | u
    · simp [leerRegistrosModbus, h, hc]
    · rcases hl : env.leer with e | respuesta <;>
        simp [leerRegistrosModbus, h, hc, hl] at hv ⊢
  · intro modo envM envE reg h
    simp [leerRegistrador, h]

/-! ### Fingerprint machinery for claims C3, C8 and C10 -/

theorem orderedInsert_map (a : RegistradorRemoto) (l : List RegistradorRemoto) :
    (List.orderedInsert leRegistrador a l).map proyeccionHash =
      List.orderedInsert leProyeccion (proyeccionHash a) (l.map proyeccionHash) := by
  induction l with
  | nil => rfl
  | cons b resto ih =>
      by_cases h : leRegistrador a b
      · have h' : leProyeccion (proyeccionHash a) (proyeccionHash b) := h
        simp [List.orderedInsert, h, h']
      · have h' : ¬ leProyeccion (proyeccionHash a) (proyeccionHash b) := h
        simp [List.orderedInsert, h, h', ih]

theorem hash_eq_sort_proyeccion (l : List RegistradorRemoto) :
    hashConfiguracion l = List.insertionSort leProyeccion (l.map proyeccionHash) := by
  induction l with
  | nil => rfl
  | cons a resto ih =>
      simp only [hashConfiguracion] at ih ⊢
      simp [List.insertionSort, orderedInsert_map, ih]

theorem hash_perm_proyecciones (l : List RegistradorRemoto) :
    (hashConfiguracion l).Perm (l.map proyeccionHash) := by
  rw [hash_eq_sort_proyeccion]
  exact List.perm_insertionSort _ _

theorem ids_proyecciones (l : List RegistradorRemoto) :
    (l.map proyeccionHash).map ProyeccionHash.id = l.map RegistradorRemoto.id := by
  rw [List.map_map]
  rfl

theorem sorted_lt_de_nodup {l : List ProyeccionHash}
    (hs : List.Sorted leProyeccion l) (hn : (l.map ProyeccionHash.id).Nodup) :
    List.Sorted ltProyeccion l := by
  have hpair : l.Pairwise (fun a b => a.id ≠ b.id) := List.pairwise_map.mp hn
  exact (hs.and hpair).imp (fun h => ⟨h.1, h.2⟩)

theorem sort_proyeccion_eq_de_perm {m₁ m₂ : List ProyeccionHash}
    (hp : m₁.Perm m₂) (h1 : (m₁.map ProyeccionHash.id).Nodup) :
    List.insertionSort leProyeccion m₁ = List.insertionSort leProyeccion m₂ := by
  have hperm : (List.insertionSort leProyeccion m₁).Perm (List.insertionSort leProyeccion m₂) :=
    (List.perm_insertionSort _ _).trans (hp.trans (List.perm_insertionSort _ _).symm)
  have hids1 : ((List.insertionSort leProyeccion m₁).map ProyeccionHash.id).Nodup :=
    (((List.perm_insertionSort leProyeccion m₁).map ProyeccionHash.id).nodup_iff).mpr h1
  have h2 : (m₂.map ProyeccionHash.id).Nodup :=
    ((hp.map ProyeccionHash.id).nodup_iff).mp h1
  have hids2 : ((List.insertionSort leProyeccion m₂).map ProyeccionHash.id).Nodup :=
    (((List.perm_insertionSort leProyeccion m₂).map ProyeccionHash.id).nodup_iff).mpr h2
  exact List.eq_of_perm_of_sorted hperm
    (sorted_lt_de_nodup (List.sorted_insertionSort _ _) hids1)
    (sorted_lt_de_nodup (List.sorted_insertionSort _ _) hids2)

theorem hash_eq_de_perm {l₁ l₂ : List RegistradorRemoto}
    (hp : (l₁.map proyeccionHash).Perm (l₂.map proyeccionHash))
    (h1 : (l₁.map RegistradorRemoto.id).Nodup) :
    hashConfiguracion l₁ = hashConfiguracion l₂ := by
  rw [hash_eq_sort_proyeccion, hash_eq_sort_proyeccion]
  apply sort_proyeccion_eq_de_perm hp
  rw [ids_proyecciones]
  exact h1

theorem perm_de_hash_eq {l₁ l₂ : List RegistradorRemoto}
    (h : hashConfiguracion l₁ = hashConfiguracion l₂) :
    (l₁.map proyeccionHash).Perm (l₂.map proyeccionHash) := by
  have h1 := hash_perm_proyecciones l₁
  have h2 := hash_perm_proyecciones l₂
  rw [h] at h1
  exact h1.symm.trans h2

theorem nodup_proyecciones {l : List RegistradorRemoto}
    (h : (l.map RegistradorRemoto.id).Nodup) : (l.map proyeccionHash).Nodup := by
  have hp : l.Pairwise (fun a b => a.id ≠ b.id) := List.pairwise_map.mp h
  have h2 : l.Pairwise (fun a b => proyeccionHash a ≠ proyeccionHash b) :=
    hp.imp (fun hne he => hne (congrArg ProyeccionHash.id he))
  exact List.pairwise_map.mpr h2

theorem existe_proyeccion_igual {l₁ l₂ : List RegistradorRemoto}
    (hperm : (l₁.map proyeccionHash).Perm (l₂.map proyeccionHash))
    {r : RegistradorRemoto} (hr : r ∈ l₂) :
    ∃ p ∈ l₁, proyeccionHash p = proyeccionHash r := by
  have hm : proyeccionHash r ∈ l₁.map proyeccionHash :=
    hperm.mem_iff.mpr (List.mem_map_of_mem _ hr)
  rcases List.mem_map.mp hm with ⟨p, hp, he⟩
  exact ⟨p, hp, he⟩

theorem perm_proyecciones {l₁ l₂ : List RegistradorRemoto}
    (h1 : (l₁.map RegistradorRemoto.id).Nodup) (h2 : (l₂.map RegistradorRemoto.id).Nodup)
    (hsub : ∀ r ∈ l₂, ∃ p ∈ l₁, proyeccionHash p = proyeccionHash r)
    (hsup : ∀ p ∈ l₁, ∃ r ∈ l₂, r.id = p.id) :
    (l₁.map proyeccionHash).Perm (l₂.map proyeccionHash) := by
  have hn1 := nodup_proyecciones h1
  have hn2 := nodup_proyecciones h2
  have hmem : ∀ q, q ∈ l₁.map proyeccionHash ↔ q ∈ l₂.map proyeccionHash := by
    intro q
    constructor
    · intro hq
      rcases List.mem_map.mp hq with ⟨p, hpmem, rfl⟩
      rcases hsup p hpmem with ⟨r, hrmem, hrid⟩
      rcases hsub r hrmem with ⟨p', hp'mem, hp'⟩
      have hid : p'.id = p.id := by
        have hid2 : p'.id = r.id := congrArg ProyeccionHash.id hp'
        exact hid2.trans hrid
      have hpp : p' = p := List.inj_on_of_nodup_map h1 hp'mem hpmem hid
      rw [← hpp]
      exact List.mem_map.mpr ⟨r, hrmem, hp'.symm⟩
    · intro hq
      rcases List.mem_map.mp hq with ⟨r, hrmem, rfl⟩
      rcases hsub r hrmem with ⟨p, hpmem, hp⟩
      exact List.mem_map.mpr ⟨p, hpmem, hp⟩
  apply List.perm_iff_count.mpr
  intro q
  by_cases hq : q ∈ l₁.map proyeccionHash
  · rw [List.count_eq_one_of_mem hn1 hq, List.count_eq_one_of_mem hn2 ((hmem q).mp hq)]
  · rw [List.count_eq_zero_of_not_mem hq,
      List.count_eq_zero_of_not_mem (fun hc => hq ((hmem q).mpr hc))]

theorem mapLookup_pares {l : List RegistradorRemoto} {k : String} {a : Bool}
    (h : mapLookup (l.map (fun p => (p.id, p.activo))) k = some a) :
    ∃ p ∈ l, p.id = k ∧ p.activo = a := by
  induction l with
  | nil => simp [mapLookup] at h
  | cons p resto ih =>
      by_cases hid : p.id = k
      · simp only [List.map_cons, mapLookup, hid, if_pos, Option.some.injEq] at h
        exact ⟨p, by simp, hid, h⟩
      · simp only [List.map_cons, mapLookup, hid, if_neg, if_false] at h
        rcases ih h with ⟨q, hq, hqk, hqa⟩
        exact ⟨q, by simp [hq], hqk, hqa⟩

theorem find?_id_de_mem {l : List RegistradorRemoto} {k : String} {p : RegistradorRemoto}
    (hn : (l.map RegistradorRemoto.id).Nodup) (hp : p ∈ l) (hk : p.id = k) :
    l.find? (fun x => decide (x.id = k)) = some p := by
  induction l with
  | nil => cases hp
  | cons cabeza resto ih =>
      rcases List.mem_cons.mp hp with he | hresto
      · subst he
        simp [List.find?, hk]
      · have hnres : (resto.map RegistradorRemoto.id).Nodup := (List.nodup_cons.mp hn).2
        have hni : cabeza.id ∉ resto.map RegistradorRemoto.id := (List.nodup_cons.mp hn).1
        have hne : ¬ cabeza.id = k := by
          intro he
          apply hni
          rw [he, ← hk]
          exact List.mem_map_of_mem _ hresto
        have hdec : (decide (cabeza.id = k)) = false := by simpa using hne
        simp only [List.find?, hdec]
        exact ih hnres hresto

/-! ### Scheduler step lemmas for claims C1 and C2 -/

theorem armar_cache (s : EstadoAgente) (reg : Registrador) :
    (armarRegistrador s reg).registradoresCache = s.registradoresCache := rfl

theorem armar_has (s : EstadoAgente) (reg : Registrador) (k : String) :
    mapHas (armarRegistrador s reg).intervalosLectura k = true ↔
      (k = reg.id ∨ mapHas s.intervalosLectura k = true) :=
  mapHas_set s.intervalosLectura reg.id (intervaloEfectivo reg * 1000) k

theorem armar_sync (s : EstadoAgente) (reg : Registrador) (h : Sincronizados s) :
    Sincronizados (armarRegistrador s reg) := by
  intro k
  show mapHas (mapSet s.contadoresProxLectura reg.id (intervaloEfectivo reg)) k = true ↔
    mapHas (mapSet s.intervalosLectura reg.id (intervaloEfectivo reg * 1000)) k = true
  rw [mapHas_set, mapHas_set]
  exact or_congr Iff.rfl (h k)

theorem iniciar_cache (s : EstadoAgente) (reg : Registrador) :
    (iniciarPollingRegistrador s reg).registradoresCache = s.registradoresCache := by
  unfold iniciarPollingRegistrador
  split <;> rfl

theorem iniciar_has (s : EstadoAgente) (reg : Registrador) (k : String) :
    mapHas (iniciarPollingRegistrador s reg).intervalosLectura k = true ↔
      ((reg.activo = true ∧ k = reg.id) ∨ mapHas s.intervalosLectura k = true) := by
  unfold iniciarPollingRegistrador
  by_cases h : reg.activo = true
  · rw [if_pos h]
    rw [armar_has]
    simp [h]
  · rw [if_neg h]
    simp [h]

theorem iniciar_sync (s : EstadoAgente) (reg : Registrador) (h : Sincronizados s) :
    Sincronizados (iniciarPollingRegistrador s reg) := by
  unfold iniciarPollingRegistrador
  by_cases ha : reg.activo = true
  · rw [if_pos ha]
    exact armar_sync _ reg h
  · rw [if_neg ha]
    exact h

theorem detener_cache (s : EstadoAgente) (rid : String) :
    (detenerPollingRegistrador s rid).registradoresCache = s.registradoresCache := by
  unfold detenerPollingRegistrador
  split <;> rfl

theorem detener_has (s : EstadoAgente) (rid : String) (k : String) :
    mapHas (detenerPollingRegistrador s rid).intervalosLectura k = true ↔
      (mapHas s.intervalosLectura k = true ∧ ¬ k = rid) := by
  unfold detenerPollingRegistrador
  by_cases h : mapHas s.intervalosLectura rid = true
  · rw [if_pos h]
    show mapHas (mapDelete s.intervalosLectura rid) k = true ↔ _
    rw [mapHas_delete]
    tauto
  · rw [if_neg h]
    constructor
    · intro hk
      refine ⟨hk, ?_⟩
      intro he
      rw [he] at hk
      exact h hk
    · exact fun hk => hk.1

theorem detener_sync (s : EstadoAgente) (rid : String) (h : Sincronizados s) :
    Sincronizados (detenerPollingRegistrador s rid) := by
  unfold detenerPollingRegistrador
  by_cases hx : mapHas s.intervalosLectura rid = true
  · rw [if_pos hx]
    intro k
    show mapHas (mapDelete s.contadoresProxLectura rid) k = true ↔
      mapHas (mapDelete s.intervalosLectura rid) k = true
    rw [mapHas_delete, mapHas_delete]
    exact and_congr Iff.rfl (h k)
  · rw [if_neg hx]
    exact h

theorem armarLista_cache : ∀ (l : List Registrador) (s : EstadoAgente),
    (armarLista s l).registradoresCache = s.registradoresCache
  | [], _ => rfl
  | reg :: resto, s => by
      simp only [armarLista]
      rw [armarLista_cache resto]
      rfl

theorem armarLista_sync : ∀ (l : List Registrador) (s : EstadoAgente),
    Sincronizados s → Sincronizados (armarLista s l)
  | [], _, h => h
  | reg :: resto, s, h => by
      simp only [armarLista]
      exact armarLista_sync resto _ (armar_sync s reg h)

theorem armarLista_has : ∀ (l : List Registrador) (s : EstadoAgente) (k : String),
    mapHas (armarLista s l).intervalosLectura k = true ↔
      (mapHas s.intervalosLectura k = true ∨ ∃ r ∈ l, r.id = k)
  | [], s, k => by simp [armarLista]
  | reg :: resto, s, k => by
      simp only [armarLista]
      rw [armarLista_has resto, armar_has]
      simp only [List.mem_cons]
      constructor
      · rintro ((he | hs) | ⟨r, hr, hrk⟩)
        · exact Or.inr ⟨reg, Or.inl rfl, he.symm⟩
        · exact Or.inl hs
        · exact Or.inr ⟨r, Or.inr hr, hrk⟩
      · rintro (hs | ⟨r, hmem, hrk⟩)
        · exact Or.inl (Or.inr hs)
        · rcases hmem with he | hr
          · exact Or.inl (Or.inl (he ▸ hrk).symm)
          · exact Or.inr ⟨r, hr, hrk⟩

theorem faseEliminados_cache : ∀ (l : List Registrador) (ids : List String) (s : EstadoAgente),
    (faseEliminados ids s l).registradoresCache = s.registradoresCache
  | [], _, _ => rfl
  | regActual :: resto, ids, s => by
      simp only [faseEliminados]
      rw [faseEliminados_cache resto]
      by_cases hm : regActual.id ∈ ids
      · rw [if_pos (by simpa using hm)]
      · rw [if_neg (by simpa using hm), detener_cache]

theorem faseEliminados_sync : ∀ (l : List Registrador) (ids : List String) (s : EstadoAgente),
    Sincronizados s → Sincronizados (faseEliminados ids s l)
  | [], _, _, h => h
  | regActual :: resto, ids, s, h => by
      simp only [faseEliminados]
      apply faseEliminados_sync resto
      by_cases hm : regActual.id ∈ ids
      · rw [if_pos (by simpa using hm)]
        exact h
      · rw [if_neg (by simpa using hm)]
        exact detener_sync s regActual.id h

theorem faseEliminados_has : ∀ (l : List Registrador) (ids : List String)
    (s : EstadoAgente) (k : String),
    mapHas (faseEliminados ids s l).intervalosLectura k = true ↔
      (mapHas s.intervalosLectura k = true ∧
        ¬ (k ∈ l.map Registrador.id ∧ ¬ k ∈ ids))
  | [], ids, s, k => by simp [faseEliminados]
  | regActual :: resto, ids, s, k => by
      simp only [faseEliminados]
      rw [faseEliminados_has resto]
      simp only [List.map_cons, List.mem_cons]
      by_cases hm : regActual.id ∈ ids
      · rw [if_pos (by simpa using hm)]
        constructor
        · rintro ⟨hs, hno⟩
          refine ⟨hs, ?_⟩
          rintro ⟨he | hmem, hnotin⟩
          · exact hnotin (he ▸ hm)
          · exact hno ⟨hmem, hnotin⟩
        · rintro ⟨hs, hno⟩
          exact ⟨hs, fun hx => hno ⟨Or.inr hx.1, hx.2⟩⟩
      · rw [if_neg (by simpa using hm), detener_has]
        constructor
        · rintro ⟨⟨hs, hne⟩, hno⟩
          refine ⟨hs, ?_⟩
          rintro ⟨he | hmem, hnotin⟩
          · exact hne he
          · exact hno ⟨hmem, hnotin⟩
        · rintro ⟨hs, hno⟩
          refine ⟨⟨hs, ?_⟩, ?_⟩
          · intro he
            exact hno ⟨Or.inl he, by rw [he]; exact hm⟩
          · intro hx
            exact hno ⟨Or.inr hx.1, hx.2⟩

theorem faseNuevos_cache : ∀ (l : List Registrador) (ids : List String) (s : EstadoAgente),
    (faseNuevos ids s l).registradoresCache = s.registradoresCache
  | [], _, _ => rfl
  | regNuevo :: resto, ids, s => by
      simp only [faseNuevos]
      rw [faseNuevos_cache resto]
      by_cases hm : regNuevo.id ∈ ids
      · rw [if_pos (by simpa using hm)]
      · rw [if_neg (by simpa using hm)]
        by_cases ha : regNuevo.activo = true
        · rw [if_pos ha, iniciar_cache]
        · rw [if_neg ha]

theorem faseNuevos_sync : ∀ (l : List Registrador) (ids : List String) (s : EstadoAgente),
    Sincronizados s → Sincronizados (faseNuevos ids s l)
  | [], _, _, h => h
  | regNuevo :: resto, ids, s, h => by
      simp only [faseNuevos]
      apply faseNuevos_sync resto
      by_cases hm : regNuevo.id ∈ ids
      · rw [if_pos (by simpa using hm)]
        exact h
      · rw [if_neg (by simpa using hm)]
        by_cases ha : regNuevo.activo = true
        · rw [if_pos ha]
          exact iniciar_sync s regNuevo h
        · rw [if_neg ha]
          exact h

theorem faseNuevos_has : ∀ (l : List Registrador) (ids : List String)
    (s : EstadoAgente) (k : String),
    mapHas (faseNuevos ids s l).intervalosLectura k = true ↔
      (mapHas s.intervalosLectura k = true ∨
        ∃ r ∈ l, r.id = k ∧ ¬ r.id ∈ ids ∧ r.activo = true)
  | [], ids, s, k => by simp [faseNuevos]
  | regNuevo :: resto, ids, s, k => by
      simp only [faseNuevos]
      rw [faseNuevos_has resto]
      simp only [List.mem_cons]
      by_cases hm : regNuevo.id ∈ ids
      · rw [if_pos (by simpa using hm)]
        constructor
        · rintro (hs | ⟨r, hr, hrest⟩)
          · exact Or.inl hs
          · exact Or.inr ⟨r, Or.inr hr, hrest⟩
        · rintro (hs | ⟨r, he | hr, hrk, hrni, hra⟩)
          · exact Or.inl hs
          · exact absurd (he ▸ hm) hrni
          · exact Or.inr ⟨r, hr, hrk, hrni, hra⟩
      · rw [if_neg (by simpa using hm)]
        by_cases ha : regNuevo.activo = true
        · rw [if_pos ha, iniciar_has]
          constructor
          · rintro ((⟨hra, hk⟩ | hs) | ⟨r, hr, hrest⟩)
            · exact Or.inr ⟨regNuevo, Or.inl rfl, hk.symm, hm, hra⟩
            · exact Or.inl hs
            · exact Or.inr ⟨r, Or.inr hr, hrest⟩
          · rintro (hs | ⟨r, he | hr, hrk, hrni, hra2⟩)
            · exact Or.inl (Or.inr hs)
            · subst he
              exact Or.inl (Or.inl ⟨hra2, hrk.symm⟩)
            · exact Or.inr ⟨r, hr, hrk, hrni, hra2⟩
        · rw [if_neg ha]
          constructor
          · rintro (hs | ⟨r, hr, hrest⟩)
            · exact Or.inl hs
            · exact Or.inr ⟨r, Or.inr hr, hrest⟩
          · rintro (hs | ⟨r, he | hr, hrk, hrni, hra2⟩)
            · exact Or.inl hs
            · subst he
              exact absurd hra2 ha
            · exact Or.inr ⟨r, hr, hrk, hrni, hra2⟩

theorem find?_interno_de_mem {l : List Registrador} {k : String} {c : Registrador}
    (hn : (l.map Registrador.id).Nodup) (hc : c ∈ l) (hk : c.id = k) :
    l.find? (fun x => decide (x.id = k)) = some c := by
  induction l with
  | nil => cases hc
  | cons cabeza resto ih =>
      rcases List.mem_cons.mp hc with he | hresto
      · subst he
        simp [List.find?, hk]
      · have hnres : (resto.map Registrador.id).Nodup := (List.nodup_cons.mp hn).2
        have hni : cabeza.id ∉ resto.map Registrador.id := (List.nodup_cons.mp hn).1
        have hne : ¬ cabeza.id = k := by
          intro he
          apply hni
          rw [he, ← hk]
          exact List.mem_map_of_mem _ hresto
        have hdec : (decide (cabeza.id = k)) = false := by simpa using hne
        simp only [List.find?, hdec]
        exact ih hnres hresto

theorem faseEstados_cache : ∀ (l : List Registrador) (viejo : List Registrador)
    (s : EstadoAgente), (faseEstados viejo s l).registradoresCache = s.registradoresCache
  | [], _, _ => rfl
  | regNuevo :: resto, viejo, s => by
      simp only [faseEstados]
      rw [faseEstados_cache resto]
      rcases hfind : viejo.find? (fun c => decide (c.id = regNuevo.id)) with _ | regActual
      · simp only [hfind]
      · simp only [hfind]
        by_cases c1 : regActual.activo = true ∧ ¬ regNuevo.activo = true
        · rw [if_pos c1, detener_cache]
        · rw [if_neg c1]
          by_cases c2 : ¬ regActual.activo = true ∧ regNuevo.activo = true
          · rw [if_pos c2, iniciar_cache]
          · rw [if_neg c2]

theorem faseEstados_sync : ∀ (l : List Registrador) (viejo : List Registrador)
    (s : EstadoAgente), Sincronizados s → Sincronizados (faseEstados viejo s l)
  | [], _, _, h => h
  | regNuevo :: resto, viejo, s, h => by
      simp only [faseEstados]
      apply faseEstados_sync resto
      rcases hfind : viejo.find? (fun c => decide (c.id = regNuevo.id)) with _ | regActual
      · simp only [hfind]
        exact h
      · simp only [hfind]
        by_cases c1 : regActual.activo = true ∧ ¬ regNuevo.activo = true
        · rw [if_pos c1]
          exact detener_sync s regNuevo.id h
        · rw [if_neg c1]
          by_cases c2 : ¬ regActual.activo = true ∧ regNuevo.activo = true
          · rw [if_pos c2]
            exact iniciar_sync s regNuevo h
          · rw [if_neg c2]
            exact h

theorem faseEstados_has_noesta : ∀ (l : List Registrador) (viejo : List Registrador)
    (s : EstadoAgente) (k : String), ¬ k ∈ l.map Registrador.id →
    (mapHas (faseEstados viejo s l).intervalosLectura k = true ↔
      mapHas s.intervalosLectura k = true)
  | [], _, _, _, _ => Iff.rfl
  | regNuevo :: resto, viejo, s, k, hk => by
      simp only [List.map_cons, List.mem_cons] at hk
      push_neg at hk
      obtain ⟨hkne, hkresto⟩ := hk
      simp only [faseEstados]
      rw [faseEstados_has_noesta resto viejo _ k (by simpa using hkresto)]
      rcases hfind : viejo.find? (fun c => decide (c.id = regNuevo.id)) with _ | regActual
      · simp only [hfind]
      · simp only [hfind]
        by_cases c1 : regActual.activo = true ∧ ¬ regNuevo.activo = true
        · rw [if_pos c1, detener_has]
          constructor
          · exact fun h => h.1
          · exact fun h => ⟨h, hkne⟩
        · rw [if_neg c1]
          by_cases c2 : ¬ regActual.activo = true ∧ regNuevo.activo = true
          · rw [if_pos c2, iniciar_has]
            constructor
            · rintro (⟨_, hk2⟩ | hs)
              · exact absurd hk2 hkne
              · exact hs
            · exact fun hs => Or.inr hs
          · rw [if_neg c2]

theorem faseEstados_has_mem : ∀ (l : List Registrador) (viejo : List Registrador)
    (s : EstadoAgente) (k : String) (r : Registrador),
    (l.map Registrador.id).Nodup → r ∈ l → r.id = k →
    (mapHas (faseEstados viejo s l).intervalosLectura k = true ↔
      (match viejo.find? (fun c => decide (c.id = r.id)) with
       | some regActual =>
           if regActual.activo = true ∧ ¬ r.activo = true then False
           else if ¬ regActual.activo = true ∧ r.activo = true then True
           else mapHas s.intervalosLectura k = true
       | none => mapHas s.intervalosLectura k = true))
  | [], _, _, _, _, _, hr, _ => absurd hr (List.not_mem_nil _)
  | regNuevo :: resto, viejo, s, k, r, hn, hr, hk => by
      rcases List.mem_cons.mp hr with he | hresto
      · subst he
        have hn' : r.id ∉ resto.map Registrador.id ∧ (resto.map Registrador.id).Nodup := by
          rw [List.map_cons, List.nodup_cons] at hn
          exact hn
        have hkresto : ¬ k ∈ resto.map Registrador.id := by
          intro hmem
          rw [← hk] at hmem
          exact hn'.1 hmem
        simp only [faseEstados]
        rw [faseEstados_has_noesta resto viejo _ k hkresto]
        rcases hfind : viejo.find? (fun c => decide (c.id = r.id)) with _ | regActual
        · simp only [hfind]
        · simp only [hfind]
          by_cases c1 : regActual.activo = true ∧ ¬ r.activo = true
          · rw [if_pos c1, detener_has]
            simp only [if_pos c1]
            constructor
            · rintro ⟨_, hne⟩
              exact hne hk.symm
            · intro hfalso
              exact absurd hfalso id
          · rw [if_neg c1]
            by_cases c2 : ¬ regActual.activo = true ∧ r.activo = true
            · rw [if_pos c2, iniciar_has]
              simp only [if_neg c1, if_pos c2]
              constructor
              · intro _
                trivial
              · intro _
                exact Or.inl ⟨c2.2, hk.symm⟩
            · rw [if_neg c2]
              simp only [if_neg c1, if_neg c2]
      · have hn' : regNuevo.id ∉ resto.map Registrador.id ∧ (resto.map Registrador.id).Nodup := by
          rw [List.map_cons, List.nodup_cons] at hn
          exact hn
        have hn2 : (resto.map Registrador.id).Nodup := hn'.2
        have hkne : ¬ k = regNuevo.id := by
          intro he
          apply hn'.1
          rw [← he, ← hk]
          exact List.mem_map_of_mem _ hresto
        simp only [faseEstados]
        rw [faseEstados_has_mem resto viejo _ k r hn2 hresto hk]
        rcases hfind0 : viejo.find? (fun c => decide (c.id = regNuevo.id)) with _ | regActual
        · simp only [hfind0]
        · simp only [hfind0]
          rcases hfind : viejo.find? (fun c => decide (c.id = r.id)) with _ | regR
          · simp only [hfind]
            by_cases c1 : regActual.activo = true ∧ ¬ regNuevo.activo = true
            · rw [if_pos c1, detener_has]
              exact and_iff_left hkne
            · rw [if_neg c1]
              by_cases c2 : ¬ regActual.activo = true ∧ regNuevo.activo = true
              · rw [if_pos c2, iniciar_has]
                constructor
                · rintro (⟨_, hk2⟩ | hs)
                  · exact absurd hk2 hkne
                  · exact hs
                · exact fun hs => Or.inr hs
              · rw [if_neg c2]
          · simp only [hfind]
            by_cases d1 : regR.activo = true ∧ ¬ r.activo = true
            · simp only [if_pos d1]
            · simp only [if_neg d1]
              by_cases d2 : ¬ regR.activo = true ∧ r.activo = true
              · simp only [if_pos d2]
              · simp only [if_neg d2]
                by_cases c1 : regActual.activo = true ∧ ¬ regNuevo.activo = true
                · rw [if_pos c1, detener_has]
                  exact and_iff_left hkne
                · rw [if_neg c1]
                  by_cases c2 : ¬ regActual.activo = true ∧ regNuevo.activo = true
                  · rw [if_pos c2, iniciar_has]
                    constructor
                    · rintro (⟨_, hk2⟩ | hs)
                      · exact absurd hk2 hkne
                      · exact hs
                    · exact fun hs => Or.inr hs
                  · rw [if_neg c2]

theorem invariante_de_componentes (cache : List Registrador)
    (inter cont : List (String × Nat)) (ciclo : Bool) (rest : EstadoRest)
    (h1 : (cache.map Registrador.id).Nodup)
    (h2 : ∀ k, mapHas cont k = true ↔ mapHas inter k = true)
    (h3 : ∀ k, mapHas inter k = true ↔ ∃ r ∈ cache, r.id = k ∧ r.activo = true) :
    InvarianteAgente ⟨cache, inter, cont, ciclo, rest⟩ := ⟨h1, h2, h3⟩

theorem ids_transformar (regs : List RegistradorRemoto) :
    (regs.map transformar).map Registrador.id = regs.map RegistradorRemoto.id := by
  rw [List.map_map]
  rfl

/-- Timer characterisation after the three phases of
`actualizarRegistradoresGranular`. -/
theorem granular_timers (s : EstadoAgente) (regs : List RegistradorRemoto)
    (hndc : (s.registradoresCache.map Registrador.id).Nodup)
    (htimers : TimersCorrectos s)
    (hnd : (regs.map RegistradorRemoto.id).Nodup) (k : String) :
    mapHas (faseEstados s.registradoresCache
        (faseNuevos (s.registradoresCache.map Registrador.id)
          (faseEliminados ((regs.map transformar).map Registrador.id) s s.registradoresCache)
          (regs.map transformar))
        (regs.map transformar)).intervalosLectura k = true ↔
      ∃ r ∈ regs.map transformar, r.id = k ∧ r.activo = true := by
  have hndN : ((regs.map transformar).map Registrador.id).Nodup := by
    rw [ids_transformar]
    exact hnd
  by_cases hkN : k ∈ (regs.map transformar).map Registrador.id
  · rcases List.mem_map.mp hkN with ⟨r, hrmem, hrid⟩
    rw [faseEstados_has_mem (regs.map transformar) s.registradoresCache _ k r hndN hrmem hrid]
    by_cases hkA : k ∈ s.registradoresCache.map Registrador.id
    · rcases List.mem_map.mp hkA with ⟨c, hcmem, hcid⟩
      have hfindc : s.registradoresCache.find? (fun x => decide (x.id = r.id)) = some c :=
        find?_interno_de_mem hndc hcmem (hcid.trans hrid.symm)
      simp only [hfindc]
      have hs2 : mapHas (faseNuevos (s.registradoresCache.map Registrador.id)
          (faseEliminados ((regs.map transformar).map Registrador.id) s s.registradoresCache)
          (regs.map transformar)).intervalosLectura k = true ↔ c.activo = true := by
        rw [faseNuevos_has]
        constructor
        · rintro (h1 | ⟨r2, _, hr2k, hr2ni, _⟩)
          · rw [faseEliminados_has] at h1
            rcases (htimers k).mp h1.1 with ⟨c2, hc2mem, hc2id, hc2act⟩
            have hcc : c2 = c :=
              List.inj_on_of_nodup_map hndc hc2mem hcmem (hc2id.trans hcid.symm)
            rw [← hcc]
            exact hc2act
          · rw [hr2k] at hr2ni
            exact absurd hkA hr2ni
        · intro hca
          left
          rw [faseEliminados_has]
          refine ⟨(htimers k).mpr ⟨c, hcmem, hcid, hca⟩, ?_⟩
          rintro ⟨_, hknotin⟩
          exact hknotin hkN
      by_cases c1 : c.activo = true ∧ ¬ r.activo = true
      · rw [if_pos c1]
        constructor
        · exact False.elim
        · rintro ⟨r2, hr2, hr2k, hr2a⟩
          have hrr : r2 = r :=
            List.inj_on_of_nodup_map hndN hr2 hrmem (hr2k.trans hrid.symm)
          exact c1.2 (hrr ▸ hr2a)
      · rw [if_neg c1]
        by_cases c2 : ¬ c.activo = true ∧ r.activo = true
        · rw [if_pos c2]
          constructor
          · intro _
            exact ⟨r, hrmem, hrid, c2.2⟩
          · intro _
            trivial
        · rw [if_neg c2]
          have hflags : c.activo = r.activo := by
            by_cases hca : c.activo = true
            · have hra : r.activo = true := by
                by_contra hra
                exact c1 ⟨hca, hra⟩
              rw [hca, hra]
            · have hcf : c.activo = false := by simpa using hca
              have hrn : ¬ r.activo = true := fun hra => c2 ⟨hca, hra⟩
              have hrf : r.activo = false := by simpa using hrn
              rw [hcf, hrf]
          rw [hs2]
          constructor
          · intro hca
            refine ⟨r, hrmem, hrid, ?_⟩
            rw [← hflags]
            exact hca
          · rintro ⟨r2, hr2, hr2k, hr2a⟩
            have hrr : r2 = r :=
              List.inj_on_of_nodup_map hndN hr2 hrmem (hr2k.trans hrid.symm)
            rw [hflags, ← hrr]
            exact hr2a
    · have hfindc : s.registradoresCache.find? (fun x => decide (x.id = r.id)) = none := by
        apply List.find?_eq_none.mpr
        intro c hcmem
        simp only [decide_eq_true_eq]
        intro he
        apply hkA
        rw [← hrid, ← he]
        exact List.mem_map_of_mem _ hcmem
      simp only [hfindc]
      rw [faseNuevos_has]
      constructor
      · rintro (h1 | ⟨r2, hr2, hr2k, _, hr2a⟩)
        · rw [faseEliminados_has] at h1
          rcases (htimers k).mp h1.1 with ⟨c2, hc2mem, hc2id, _⟩
          refine absurd ?_ hkA
          rw [← hc2id]
          exact List.mem_map_of_mem _ hc2mem
        · exact ⟨r2, hr2, hr2k, hr2a⟩
      · rintro ⟨r2, hr2, hr2k, hr2a⟩
        right
        refine ⟨r2, hr2, hr2k, ?_, hr2a⟩
        intro hmem
        apply hkA
        rw [← hr2k]
        exact hmem
  · rw [faseEstados_has_noesta (regs.map transformar) s.registradoresCache _ k hkN,
      faseNuevos_has]
    constructor
    · rintro (h1 | ⟨r2, hr2, hr2k, _, _⟩)
      · rw [faseEliminados_has] at h1
        rcases (htimers k).mp h1.1 with ⟨c2, hc2mem, hc2id, _⟩
        refine absurd ?_ h1.2
        refine ⟨?_, hkN⟩
        rw [← hc2id]
        exact List.mem_map_of_mem _ hc2mem
      · refine absurd ?_ hkN
        rw [← hr2k]
        exact List.mem_map_of_mem _ hr2
    · rintro ⟨r2, hr2, hr2k, _⟩
      refine absurd ?_ hkN
      rw [← hr2k]
      exact List.mem_map_of_mem _ hr2

theorem granular_preserva (s : EstadoAgente) (regs : List RegistradorRemoto)
    (hInv : InvarianteAgente s) (hnd : (regs.map RegistradorRemoto.id).Nodup) :
    InvarianteAgente (actualizarRegistradoresGranular s regs) := by
  obtain ⟨hndc, hsync, htimers⟩ := hInv
  show InvarianteAgente
    ⟨regs.map transformar,
      (faseEstados s.registradoresCache
        (faseNuevos (s.registradoresCache.map Registrador.id)
          (faseEliminados ((regs.map transformar).map Registrador.id) s s.registradoresCache)
          (regs.map transformar))
        (regs.map transformar)).intervalosLectura,
      (faseEstados s.registradoresCache
        (faseNuevos (s.registradoresCache.map Registrador.id)
          (faseEliminados ((regs.map transformar).map Registrador.id) s s.registradoresCache)
          (regs.map transformar))
        (regs.map transformar)).contadoresProxLectura,
      (faseEstados s.registradoresCache
        (faseNuevos (s.registradoresCache.map Registrador.id)
          (faseEliminados ((regs.map transformar).map Registrador.id) s s.registradoresCache)
          (regs.map transformar))
        (regs.map transformar)).cicloActivo,
      (faseEstados s.registradoresCache
        (faseNuevos (s.registradoresCache.map Registrador.id)
          (faseEliminados ((regs.map transformar).map Registrador.id) s s.registradoresCache)
          (regs.map transformar))
        (regs.map transformar)).rest⟩
  apply invariante_de_componentes
  · rw [ids_transformar]
    exact hnd
  · exact faseEstados_sync (regs.map transformar) s.registradoresCache _
      (faseNuevos_sync (regs.map transformar) _ _
        (faseEliminados_sync s.registradoresCache _ s hsync))
  · exact granular_timers s regs hndc htimers hnd

/-! ### Claim C2 -/

/-- C2 counterexample: right after a full stop the timer and countdown
maps are empty while the cache still lists device "1" as active, so "the
set of ids with a live timer equals the set of active ids in the cache"
fails at that instant, contradicting the claim's "after every stop". -/
theorem detenerNoVaciaCache :
    (detenerPolling (cargaInicial estadoAgenteInicial [regBase])).intervalosLectura = [] ∧
    ((detenerPolling (cargaInicial estadoAgenteInicial [regBase])).registradoresCache.filter
        (fun r => r.activo)).map Registrador.id = ["1"] ∧
    mapHas (detenerPolling
        (cargaInicial estadoAgenteInicial [regBase])).intervalosLectura "1" = false := by
  decide

/-- C2 amended: (1) after the initial load the invariant holds — one
timer and one countdown entry per active cached device, none for inactive
devices; (2) every configuration-poll tick (hence every granular update)
preserves it, for snapshots with duplicate-free ids; (3) a full stop
empties both maps but leaves the cache in place, so at that instant the
timer set is empty rather than equal to the still-cached active set; the
equality is only restored by the reload that follows a stop. -/
theorem invarianteTimersActivos :
    (∀ regs : List RegistradorRemoto, (regs.map RegistradorRemoto.id).Nodup →
        InvarianteAgente (cargaInicial estadoAgenteInicial regs)) ∧
    (∀ (s : EstadoAgente) (regs : List RegistradorRemoto),
        InvarianteAgente s → (regs.map RegistradorRemoto.id).Nodup →
        InvarianteAgente (pasoPollConfiguracion s regs).1) ∧
    (∀ s : EstadoAgente,
        (detenerPolling s).intervalosLectura = [] ∧
        (detenerPolling s).contadoresProxLectura = [] ∧
        (detenerPolling s).registradoresCache = s.registradoresCache) := by
  refine ⟨?_, ?_, ?_⟩
  · intro regs hnd
    rcases regs with _ | ⟨r0, rrest⟩
    · show InvarianteAgente (⟨[], [], [], false, establecerHashInicial []⟩ : EstadoAgente)
      refine invariante_de_componentes _ _ _ _ _ List.nodup_nil (fun k => Iff.rfl) ?_
      intro k
      simp [mapHas, mapLookup]
    · show InvarianteAgente (iniciarPolling
        ⟨(r0 :: rrest).map transformar, [], [], false, establecerHashInicial (r0 :: rrest)⟩)
      unfold iniciarPolling
      rw [if_neg (by simp)]
      rw [if_neg (by simp [List.isEmpty_iff])]
      by_cases hact : (((r0 :: rrest).map transformar).filter (fun r => r.activo)).isEmpty = true
      · rw [if_pos hact]
        refine invariante_de_componentes _ _ _ _ _ ?_ (fun k => Iff.rfl) ?_
        · rw [ids_transformar]
          exact hnd
        · intro k
          rw [List.isEmpty_iff] at hact
          constructor
          · intro hfalso
            simp [mapHas, mapLookup] at hfalso
          · rintro ⟨r, hr, _, hra⟩
            have : r ∈ ((r0 :: rrest).map transformar).filter (fun r => r.activo) :=
              List.mem_filter.mpr ⟨hr, hra⟩
            rw [hact] at this
            cases this
      · rw [if_neg hact]
        refine invariante_de_componentes _ _ _ _ _ ?_ ?_ ?_
        · rw [armarLista_cache]
          show ((List.map transformar (r0 :: rrest)).map Registrador.id).Nodup
          rw [ids_transformar]
          exact hnd
        · exact armarLista_sync _ _ (fun k => Iff.rfl)
        · intro k
          rw [armarLista_has, armarLista_cache]
          constructor
          · rintro (hvacio | ⟨r, hr, hrk⟩)
            · simp [mapHas, mapLookup] at hvacio
            · rcases List.mem_filter.mp hr with ⟨hrmem, hra⟩
              exact ⟨r, hrmem, hrk, hra⟩
          · rintro ⟨r, hr, hrk, hra⟩
            exact Or.inr ⟨r, List.mem_filter.mpr ⟨hr, hra⟩, hrk⟩
  · intro s regs hInv hnd
    rcases hinstr : (pollConfiguracion s.rest regs).2 with _ | razon | razon
    · have : (pasoPollConfiguracion s regs).1 =
          { s with rest := (pollConfiguracion s.rest regs).1 } := by
        simp [pasoPollConfiguracion, hinstr]
      rw [this]
      exact hInv
    · have : (pasoPollConfiguracion s regs).1 =
          actualizarRegistradoresGranular
            { s with rest := (pollConfiguracion s.rest regs).1 } regs := by
        simp [pasoPollConfiguracion, hinstr]
      rw [this]
      exact granular_preserva _ regs hInv hnd
    · have : (pasoPollConfiguracion s regs).1 =
          { s with rest := (pollConfiguracion s.rest regs).1 } := by
        simp [pasoPollConfiguracion, hinstr]
      rw [this]
      exact hInv
  · intro s
    exact ⟨rfl, rfl, rfl⟩

/-- Witness for C2's amended theorem: the invariant holds after loading a
concrete two-device registry and after an interval-change tick over it. -/
theorem invarianteTimersActivos_testigo :
    InvarianteAgente (cargaInicial estadoAgenteInicial [regBase, regSegundo]) ∧
    InvarianteAgente
      (pasoPollConfiguracion (cargaInicial estadoAgenteInicial [regBase, regSegundo])
        [regIntervalo10, regSegundo]).1 :=
  ⟨invarianteTimersActivos.1 [regBase, regSegundo] (by decide),
    invarianteTimersActivos.2.1 (cargaInicial estadoAgenteInicial [regBase, regSegundo])
      [regIntervalo10, regSegundo]
      (invarianteTimersActivos.1 [regBase, regSegundo] (by decide)) (by decide)⟩

/-! ### Claim C1 -/

/-- C1: the claim (and the source's own comments, "se aplicará en próximo
ciclo") says an interval change takes effect on the device's next natural
firing without a new timer. Evaluated at the failing input: device "1"
polling at 60 s, snapshot changes the interval to 10 s. The tick
classifies the change as cosmetic, but the cosmetic callback
(`onConfiguracionActualizada`) is never registered, so
`registradoresCache` keeps `intervalo_segundos = 60`; and the timer
entry keeps the period 60000 ms captured by `setInterval` when it was
armed, which `actualizarRegistradoresGranular` never re-arms on an
interval change. The device therefore keeps firing every 60 s with the
old configuration — the 10 s interval never takes effect. -/
theorem intervaloNoSeAplicaEnCaliente :
    (pasoPollConfiguracion (cargaInicial estadoAgenteInicial [regBase]) [regIntervalo10]).2 =
      Instruccion.cosmetica "cambio de configuración menor" ∧
    (pasoPollConfiguracion (cargaInicial estadoAgenteInicial [regBase])
        [regIntervalo10]).1.intervalosLectura = [("1", 60000)] ∧
    (pasoPollConfiguracion (cargaInicial estadoAgenteInicial [regBase])
        [regIntervalo10]).1.registradoresCache.map Registrador.intervalo_segundos =
      [some 60] ∧
    regIntervalo10.intervaloSegundos = some 10 := by
  decide

/-! ### Claim C3 -/

theorem proyeccion_id {p : RegistradorRemoto} {r : RegistradorRemoto}
    (h : proyeccionHash p = proyeccionHash r) : p.id = r.id :=
  congrArg ProyeccionHash.id h

theorem proyeccion_activo {p : RegistradorRemoto} {r : RegistradorRemoto}
    (h : proyeccionHash p = proyeccionHash r) : p.activo = r.activo :=
  congrArg ProyeccionHash.activo h

/-- When the fingerprints differ, the classification produced by
`detectarTipoCambio` coincides with the amended priority list. -/
theorem especificacion_de_detect (previos nuevos : List RegistradorRemoto)
    (h1 : (previos.map RegistradorRemoto.id).Nodup)
    (h2 : (nuevos.map RegistradorRemoto.id).Nodup)
    (hEq : hashConfiguracion previos ≠ hashConfiguracion nuevos) :
    (if (detectarTipoCambio (previos.map RegistradorRemoto.id)
          (previos.map fun p => (p.id, p.activo)) nuevos).requiereReinicio
     then Instruccion.estructural (detectarTipoCambio (previos.map RegistradorRemoto.id)
          (previos.map fun p => (p.id, p.activo)) nuevos).razon
     else Instruccion.cosmetica (detectarTipoCambio (previos.map RegistradorRemoto.id)
          (previos.map fun p => (p.id, p.activo)) nuevos).razon) =
      especificacionDiffCorregida previos nuevos := by
  simp only [detectarTipoCambio, especificacionDiffCorregida]
  by_cases hc1 : nuevos.any (fun r => !(decide (r.id ∈ previos.map RegistradorRemoto.id))) = true
  · rw [if_pos hc1, if_pos hc1]
    rfl
  · by_cases hc2 : (previos.map RegistradorRemoto.id).any
        (fun i => !(decide (i ∈ nuevos.map RegistradorRemoto.id))) = true
    · rw [if_neg hc1, if_neg hc1, if_pos hc2, if_pos hc2]
      rfl
    · rw [if_neg hc1, if_neg hc1, if_neg hc2, if_neg hc2]
      rcases hf : nuevos.find?
          (difiereActivo (previos.map fun p => (p.id, p.activo))) with _ | r
      · rw [hf]
        have hprev : ∀ r ∈ nuevos, r.id ∈ previos.map RegistradorRemoto.id := by
          intro r hr
          rw [Bool.not_eq_true, List.any_eq_false] at hc1
          have := hc1 r hr
          simpa using this
        have hsig : ∀ p ∈ previos, ∃ q ∈ nuevos, q.id = p.id := by
          intro p hp
          rw [Bool.not_eq_true, List.any_eq_false] at hc2
          have hmem : p.id ∈ previos.map RegistradorRemoto.id := List.mem_map_of_mem _ hp
          have hmem2 : p.id ∈ nuevos.map RegistradorRemoto.id := by
            simpa using hc2 p.id hmem
          rcases List.mem_map.mp hmem2 with ⟨q, hq, hqid⟩
          exact ⟨q, hq, hqid⟩
        have hc4 : (nuevos.any fun r =>
            match previos.find? (fun p => decide (p.id = r.id)) with
            | some p => decide (proyeccionHash p ≠ proyeccionHash r)
            | none => false) = true := by
          by_contra hc4
          rw [Bool.not_eq_true, List.any_eq_false] at hc4
          have hsub : ∀ r ∈ nuevos, ∃ p ∈ previos, proyeccionHash p = proyeccionHash r := by
            intro r hr
            rcases List.mem_map.mp (hprev r hr) with ⟨p, hp, hpid⟩
            have hfind := find?_id_de_mem h1 hp hpid
            have h4r := hc4 r hr
            rw [hfind] at h4r
            simp only [decide_eq_true_eq, Bool.not_eq_true, decide_eq_false_iff_not,
              Decidable.not_not] at h4r
            exact ⟨p, hp, h4r⟩
          exact hEq (hash_eq_de_perm (perm_proyecciones h1 h2 hsub hsig) h1)
        rw [if_pos hc4]
        rfl
      · rw [hf]
        rfl

/-- C3 amended: over a consistently seeded baseline (fingerprint, id set
and activo map of the previous snapshot, duplicate-free ids), the
instruction emitted by a `pollConfiguracion` tick equals the first-match
priority classification: (1) id only in the new set → structural
"nuevo registrador agregado"; (2) id only in the old set → structural
"registrador eliminado"; (3) first register whose activo flag differs →
structural "registrador activado"/"registrador desactivado"; (4) a
difference in a fingerprinted field (interval, ip, puerto, indiceInicial,
cantidadRegistros) → cosmetic, no timer restart; (5) otherwise — including
changes confined to non-fingerprinted fields such as nombre — no
instruction at all. -/
theorem clasificacionDiffPrioridad :
    ∀ (previos nuevos : List RegistradorRemoto) (s : EstadoRest),
      (previos.map RegistradorRemoto.id).Nodup →
      (nuevos.map RegistradorRemoto.id).Nodup →
      s.ultimaConfigHash = some (hashConfiguracion previos) →
      s.ultimosRegistradoresIds = previos.map RegistradorRemoto.id →
      s.ultimosRegistradoresActivos = previos.map (fun p => (p.id, p.activo)) →
      (pollConfiguracion s nuevos).2 = especificacionDiffCorregida previos nuevos := by
  intro previos nuevos s h1 h2 hh hi ha
  by_cases hEq : hashConfiguracion previos = hashConfiguracion nuevos
  · have hpipe : (pollConfiguracion s nuevos).2 = Instruccion.ninguna := by
      simp [pollConfiguracion, hh, hEq]
    have hperm := perm_de_hash_eq hEq
    have hpermInv := perm_de_hash_eq hEq.symm
    have hc1 : nuevos.any (fun r => !(decide (r.id ∈ previos.map RegistradorRemoto.id))) =
        false := by
      rw [List.any_eq_false]
      intro r hr
      rcases existe_proyeccion_igual hperm hr with ⟨p, hp, hproj⟩
      have hmemp : r.id ∈ previos.map RegistradorRemoto.id := by
        rw [← proyeccion_id hproj]
        exact List.mem_map_of_mem _ hp
      simp [hmemp]
    have hc2 : (previos.map RegistradorRemoto.id).any
        (fun i => !(decide (i ∈ nuevos.map RegistradorRemoto.id))) = false := by
      rw [List.any_eq_false]
      intro i hi2
      rcases List.mem_map.mp hi2 with ⟨p, hp, hpid⟩
      rcases existe_proyeccion_igual hpermInv hp with ⟨q, hq, hproj⟩
      have hmemq : i ∈ nuevos.map RegistradorRemoto.id := by
        rw [← hpid, ← proyeccion_id hproj]
        exact List.mem_map_of_mem _ hq
      simp [hmemq]
    have hf : nuevos.find? (difiereActivo (previos.map fun p => (p.id, p.activo))) = none := by
      apply List.find?_eq_none.mpr
      intro r hr
      rcases existe_proyeccion_igual hperm hr with ⟨p, hp, hproj⟩
      unfold difiereActivo
      rcases hl : mapLookup (previos.map fun p => (p.id, p.activo)) r.id with _ | a
      · simp [hl]
      · rcases mapLookup_pares hl with ⟨q, hq, hqid, hqa⟩
        have hqp : q = p :=
          List.inj_on_of_nodup_map h1 hq hp (hqid.trans (proyeccion_id hproj).symm)
        have hact : a = r.activo := by
          rw [← hqa, hqp]
          exact proyeccion_activo hproj
        simp [hl, hact]
    have hc4 : (nuevos.any fun r =>
        match previos.find? (fun p => decide (p.id = r.id)) with
        | some p => decide (proyeccionHash p ≠ proyeccionHash r)
        | none => false) = false := by
      rw [List.any_eq_false]
      intro r hr
      rcases existe_proyeccion_igual hperm hr with ⟨p, hp, hproj⟩
      have hfind := find?_id_de_mem h1 hp (proyeccion_id hproj)
      rw [hfind]
      simp [hproj]
    rw [hpipe]
    have hc1' : ¬ (nuevos.any fun r => !(decide (r.id ∈ previos.map RegistradorRemoto.id))) =
        true := by
      rw [hc1]
      exact Bool.false_ne_true
    have hc2' : ¬ ((previos.map RegistradorRemoto.id).any
        fun i => !(decide (i ∈ nuevos.map RegistradorRemoto.id))) = true := by
      rw [hc2]
      exact Bool.false_ne_true
    have hc4' : ¬ (nuevos.any fun r =>
        match previos.find? (fun p => decide (p.id = r.id)) with
        | some p => decide (proyeccionHash p ≠ proyeccionHash r)
        | none => false) = true := by
      rw [hc4]
      exact Bool.false_ne_true
    simp only [especificacionDiffCorregida]
    rw [if_neg hc1', if_neg hc2', hf, if_neg hc4']
  · have hpipe : (pollConfiguracion s nuevos).2 =
        (if (detectarTipoCambio (previos.map RegistradorRemoto.id)
              (previos.map fun p => (p.id, p.activo)) nuevos).requiereReinicio
         then Instruccion.estructural (detectarTipoCambio (previos.map RegistradorRemoto.id)
              (previos.map fun p => (p.id, p.activo)) nuevos).razon
         else Instruccion.cosmetica (detectarTipoCambio (previos.map RegistradorRemoto.id)
              (previos.map fun p => (p.id, p.activo)) nuevos).razon) := by
      simp [pollConfiguracion, hh, hi, ha, hEq]
    rw [hpipe]
    exact especificacion_de_detect previos nuevos h1 h2 hEq

/-- Witness for C3's amended theorem: an interval-only change over the
seeded baseline is classified cosmetic by both the code and the amended
specification. -/
theorem clasificacionDiffPrioridad_testigo :
    (pollConfiguracion (establecerHashInicial [regBase]) [regIntervalo10]).2 =
      especificacionDiffCorregida [regBase] [regIntervalo10] :=
  clasificacionDiffPrioridad [regBase] [regIntervalo10] (establecerHashInicial [regBase])
    (by decide) (by decide) rfl rfl rfl

/-- C3 counterexample: the claim routes "any other field difference" to
cosmetic, yet a name-only change — same id, same activo flag, different
`nombre` — produces no instruction at all, because `nombre` is not part
of the fingerprint and the tick short-circuits on fingerprint equality. -/
theorem cambioDeNombreNoEsCosmetico :
    regBase.nombre ≠ regNombreCambiado.nombre ∧
    regBase.id = regNombreCambiado.id ∧
    regBase.activo = regNombreCambiado.activo ∧
    (pollConfiguracion (establecerHashInicial [regBase]) [regNombreCambiado]).2 =
      Instruccion.ninguna := by
  refine ⟨by decide, rfl, rfl, by decide⟩

/-! ### Claim C8 -/

/-- C8 counterexample: the claim says the fingerprint is a function of
only the id set and the activo flags. Two snapshots identical except for
`intervaloSegundos` (60 vs 30) have different fingerprints, because
`hashConfiguracion` serialises intervaloSegundos, ip, puerto,
indiceInicial and cantidadRegistros as well. -/
theorem hashDependeDeIntervalo :
    regBase.id = regIntervalo30.id ∧ regBase.activo = regIntervalo30.activo ∧
    hashConfiguracion [regBase] ≠ hashConfiguracion [regIntervalo30] := by
  refine ⟨rfl, rfl, ?_⟩
  decide

/-- C8 amended: the fingerprint is a function of exactly the seven
projected fields (id, activo, intervaloSegundos, ip, puerto,
indiceInicial, cantidadRegistros): any two snapshots with pointwise equal
projections — in particular snapshots differing only in nombre, tipo,
unitId, timeoutMs or alimentador — have equal fingerprints. -/
theorem hashIgnoraCamposNoProyectados :
    ∀ l₁ l₂ : List RegistradorRemoto,
      l₁.map proyeccionHash = l₂.map proyeccionHash →
        hashConfiguracion l₁ = hashConfiguracion l₂ := by
  intro l₁ l₂ h
  rw [hash_eq_sort_proyeccion, hash_eq_sort_proyeccion, h]

/-- Witness for C8's amended theorem: a name-only change leaves the
fingerprint intact. -/
theorem hashIgnoraCamposNoProyectados_testigo :
    hashConfiguracion [regBase] = hashConfiguracion [regNombreCambiado] :=
  hashIgnoraCamposNoProyectados [regBase] [regNombreCambiado] (by decide)

/-! ### Claim C10 -/

/-- C10 counterexample: the claim quantifies over every register list,
including lists with a repeated id. For two registers sharing id "d" but
differing in activo, the stable sort keeps their relative order, so the
two orderings of the same list produce different fingerprints. -/
theorem hashNoInvarianteConDuplicados :
    [regDuplicadoA, regDuplicadoB].Perm [regDuplicadoB, regDuplicadoA] ∧
    hashConfiguracion [regDuplicadoA, regDuplicadoB] ≠
      hashConfiguracion [regDuplicadoB, regDuplicadoA] := by
  constructor
  · exact List.Perm.swap _ _ _
  · decide

/-- C10 amended: for snapshots with pairwise-distinct ids — the only
shape the backend produces — the fingerprint is invariant under
permutation, and a fetch that merely reorders the devices of the
established baseline is classified as no change. -/
theorem hashInvariantePorPermutacion :
    ∀ l₁ l₂ : List RegistradorRemoto, l₁.Perm l₂ →
      (l₁.map RegistradorRemoto.id).Nodup →
        hashConfiguracion l₁ = hashConfiguracion l₂ ∧
        ∀ s : EstadoRest, s.ultimaConfigHash = some (hashConfiguracion l₁) →
          (pollConfiguracion s l₂).2 = Instruccion.ninguna := by
  intro l₁ l₂ hp h1
  have hhash : hashConfiguracion l₁ = hashConfiguracion l₂ :=
    hash_eq_de_perm (hp.map proyeccionHash) h1
  refine ⟨hhash, ?_⟩
  intro s hs
  simp [pollConfiguracion, hs, hhash]

/-- Witness for C10's amended theorem: swapping two distinct devices. -/
theorem hashInvariantePorPermutacion_testigo :
    hashConfiguracion [regBase, regSegundo] = hashConfiguracion [regSegundo, regBase] :=
  (hashInvariantePorPermutacion [regBase, regSegundo] [regSegundo, regBase]
    (List.Perm.swap _ _ _) (by decide)).1

/-- Witness for C6's amended theorem at concrete inputs. -/
theorem lecturaFallidaDevuelveNull_testigo :
    leerRegistrosModbus ModoModbus.real envModbusOk (configLecturaDe regInvalido) =
      ⟨none, false, none⟩ ∧
    leerRegistrador ModoModbus.real envModbusOk envEnvioNormal regInvalido =
      [⟨"7", [], 40, false, some mensajeValoresNoIterables⟩] :=
  ⟨lecturaFallidaDevuelveNull.1 ModoModbus.real envModbusOk
      (configLecturaDe regInvalido) (by decide),
    lecturaFallidaDevuelveNull.2.2 ModoModbus.real envModbusOk envEnvioNormal
      regInvalido (by decide)⟩

end LectorAgente
